import Mathlib

/-!
# Persona control plane (`backend.js`) and reply generation (`agent-runner.js`)

A shallow embedding of the two source files.

* `backend.js` keeps two global plain objects, `usersData` and `agentProcesses`,
  and mutates them from Express handlers and from the event handlers attached
  to spawned child processes.  Here the globals become the fields of `State`,
  every handler becomes a function `State → request → State × Response`, and
  the values the handlers read from the outside world (`uuidv4()`,
  `new Date().toISOString()`, the outcome of the balance check) are explicit
  arguments.
* `agent-runner.js` strings are sequences of UTF-16 code units, because
  `length`, `split('')` and `substring` count code units.
-/

namespace Backend

/-! ## Data model -/

/-- One element of `user.agents`.  The `logs` array is shared by reference with
the closures of `startAgentProcess`, so the record holds the address of the
array in `State.logArrays` rather than its contents. -/
structure Agent where
  id : String
  email : String
  username : String
  password : String
  character : String
  running : Bool
  logs : Nat
deriving DecidableEq, Repr

/-- A value of `usersData`: `{ agents: [...] }`. -/
structure User where
  agents : List Agent
deriving DecidableEq, Repr

/-- The `ChildProcess` handle returned by `spawn`: the environment it was given,
the `logs` array captured by its three event handlers, its `killed` flag, and
whether its `exit` event has fired (a handle whose process is gone does not
deliver signals and keeps `killed` false). -/
structure Child where
  email : String
  username : String
  password : String
  character : String
  logs : Nat
  killed : Bool
  exited : Bool
deriving DecidableEq, Repr

/-- A value of `agentProcesses`: `{ process: child, logs }`, the child given by
its index in `State.children`. -/
structure ProcEntry where
  process : Nat
  logs : Nat
deriving DecidableEq, Repr

/-- The mutable state of the backend process.
`usersData` and `agentProcesses` list the own properties of the two global
objects in insertion order; `logArrays` is the heap of `logs` arrays;
`children` lists every handle `spawn` has returned; `killCalls` records every
`process.kill(signal)` call as (child index, signal).
The keys of `agentProcesses` are persona ids, which come from `uuidv4()` and so
never spell `__proto__`: every assignment to it creates or overwrites an own
property. -/
structure State where
  usersData : List (String × User)
  agentProcesses : List (String × ProcEntry)
  logArrays : List (List String)
  children : List Child
  killCalls : List (Nat × String)
deriving DecidableEq, Repr

/-- The state right after the module has been loaded. -/
def init : State := ⟨[], [], [], [], []⟩

/-- JSON answer of a handler. `uncaught` is an exception that escapes the
handler (Express answers it with its default error page). -/
inductive Body where
  | error (msg : String)
  | eligible (b : Bool)
  | successAgent (agent : Agent)
  | success
  | successMessage (msg : String)
  | agents (list : Option (List Agent))
  | logs (lines : List String)
  | uncaught
deriving DecidableEq, Repr

/-- Status code and body of an HTTP answer. -/
structure Response where
  status : Nat
  body : Body
deriving DecidableEq, Repr

/-! ## JavaScript objects used as maps -/

/-- Property names every plain object inherits from `Object.prototype`. -/
def objectPrototypeNames : List String :=
  ["constructor", "__defineGetter__", "__defineSetter__", "hasOwnProperty",
   "__lookupGetter__", "__lookupSetter__", "isPrototypeOf", "propertyIsEnumerable",
   "toString", "valueOf", "__proto__", "toLocaleString"]

/-- Own property read: the first pair with the key. -/
def objGet {α : Type} (o : List (String × α)) (k : String) : Option α :=
  (o.find? (fun p => p.1 == k)).map Prod.snd

/-- Assignment `o[k] = v`: overwrite the own property or append a new one. -/
def objSet {α : Type} : List (String × α) → String → α → List (String × α)
  | [], k, v => [(k, v)]
  | (k', v') :: rest, k, v =>
    if k' == k then (k, v) :: rest else (k', v') :: objSet rest k v

/-- Statement `delete o[k]`. -/
def objDelete {α : Type} (o : List (String × α)) (k : String) : List (String × α) :=
  o.filter (fun p => !(p.1 == k))

/-- What the expression `usersData[publicKey]` evaluates to. -/
inductive Lookup where
  | own (user : User)
  | inherited
  | absent
deriving DecidableEq, Repr

/-- Evaluation of `usersData[publicKey]`: an own property wins, then the
properties inherited from `Object.prototype` (functions and objects, all truthy
and none with an `agents` property), else `undefined`. -/
def usersDataGet (s : State) (publicKey : String) : Lookup :=
  match objGet s.usersData publicKey with
  | some user => .own user
  | none => if publicKey ∈ objectPrototypeNames then .inherited else .absent

/-- A request field: absent, or a string. -/
abbrev Field := Option String

/-- The string of a field that passes the test `if (field)`: present and
non-empty. -/
def truthy (f : Field) : Option String :=
  match f with
  | some v => if v = "" then none else some v
  | none => none

/-! ## Log arrays -/

/-- Contents of the array at address `r`. -/
def logsAt (s : State) (r : Nat) : List String :=
  s.logArrays.getD r []

/-- In-place update of the array at address `r`. -/
def updateLogs (arrays : List (List String)) (r : Nat)
    (f : List String → List String) : List (List String) :=
  match arrays[r]? with
  | some l => arrays.set r (f l)
  | none => arrays

/-- Method `logs.push(line)`. -/
def push (line : String) (l : List String) : List String :=
  l ++ [line]

/-- The pair `logs.push(line); if (logs.length > 500) logs.shift();`. -/
def pushShift (line : String) (l : List String) : List String :=
  if (push line l).length > 500 then (push line l).tail else push line l

/-- White space and line terminators removed by `String.prototype.trim`. -/
def isTrimChar (c : Char) : Bool :=
  c.toNat ∈ [0x9, 0xA, 0xB, 0xC, 0xD, 0x20, 0xA0, 0x1680, 0x2028, 0x2029,
    0x202F, 0x205F, 0x3000, 0xFEFF] || (0x2000 ≤ c.toNat && c.toNat ≤ 0x200A)

/-- Method `String.prototype.trim`. -/
def trim (t : String) : String :=
  String.mk ((t.data.dropWhile isTrimChar).reverse.dropWhile isTrimChar).reverse

/-! ## Process supervision -/

/-- The character U+0000. -/
def nul : Char := Char.ofNat 0

/-- Whether `spawn('node', [agentRunnerPath], { env })` throws for the persona.
Node checks every value of `env` before it creates a process and throws
`ERR_INVALID_ARG_VALUE` when one contains a null byte. The four credentials are
the values that come from a request; `createAgent` and `updateAgent` store any
non-empty string. -/
def spawnThrows (agent : Agent) : Bool :=
  agent.email.data.contains nul || agent.username.data.contains nul ||
    agent.password.data.contains nul || agent.character.data.contains nul

/-- Function `startAgentProcess(agent)`: spawn a child with the persona's
credentials, capture `agent.logs`, register the handle under `agent.id`.
`none` is the exception `spawn` throws: it is the first statement, so nothing
has been attached or registered when it escapes. -/
def startAgentProcess (s : State) (agent : Agent) : Option State :=
  if spawnThrows agent then none
  else
    some { s with
      children := s.children ++
        [⟨agent.email, agent.username, agent.password, agent.character, agent.logs,
          false, false⟩],
      agentProcesses :=
        objSet s.agentProcesses agent.id ⟨s.children.length, agent.logs⟩ }

/-- Call `child.kill(signal)` on the handle with index `pid`: the call is
recorded, and `killed` becomes true when the process is still there. -/
def kill (s : State) (pid : Nat) (signal : String) : State :=
  match s.children[pid]? with
  | some c =>
    { s with
      killCalls := s.killCalls ++ [(pid, signal)],
      children := s.children.set pid { c with killed := c.killed || !c.exited } }
  | none => s

/-- Whether `entry && entry.process && !entry.process.killed` holds. -/
def signalDue (s : State) (agentId : String) : Option Nat :=
  match objGet s.agentProcesses agentId with
  | some entry =>
    match s.children[entry.process]? with
    | some c => if c.killed then none else some entry.process
    | none => none
  | none => none

/-- Function `stopAgentProcess(agentId)`. An id that only names an inherited
property gives an `entry` without `process`, which behaves like no entry. -/
def stopAgentProcess (s : State) (agentId : String) : State :=
  let s1 := match signalDue s agentId with
    | some pid => kill s pid "SIGINT"
    | none => s
  { s1 with agentProcesses := objDelete s1.agentProcesses agentId }

/-- Handler of `child.stdout.on('data')`. -/
def onStdout (s : State) (pid : Nat) (data now : String) : State :=
  match s.children[pid]? with
  | some c =>
    { s with
      logArrays :=
        updateLogs s.logArrays c.logs (pushShift ("[" ++ now ++ "] " ++ trim data)) }
  | none => s

/-- Handler of `child.stderr.on('data')`. -/
def onStderr (s : State) (pid : Nat) (data now : String) : State :=
  match s.children[pid]? with
  | some c =>
    { s with
      logArrays :=
        updateLogs s.logArrays c.logs
          (pushShift ("[" ++ now ++ "] ERROR: " ++ trim data)) }
  | none => s

/-- Text of the exit code in the template literal: a number, or `null` when the
child was ended by a signal. -/
def codeText (code : Option Nat) : String :=
  match code with
  | some n => toString n
  | none => "null"

/-- Handler of `child.on('exit')`; the handle also loses its process. -/
def onExit (s : State) (pid : Nat) (code : Option Nat) (now : String) : State :=
  match s.children[pid]? with
  | some c =>
    { s with
      logArrays := updateLogs s.logArrays c.logs
        (push ("[" ++ now ++ "] Process exited with code " ++ codeText code)),
      children := s.children.set pid { c with exited := true } }
  | none => s

/-! ## Express handlers -/

/-- Array method `find(a => a.id === agentId)`. -/
def findAgent (agents : List Agent) (agentId : String) : Option Agent :=
  agents.find? (fun a => a.id == agentId)

/-- Array method `findIndex(a => a.id === agentId)`. -/
def findAgentIndex (agents : List Agent) (agentId : String) : Option Nat :=
  agents.findIdx? (fun a => a.id == agentId)

/-- In-place mutation of the object `find` returned: the first element with the
id is replaced by `f` of it. -/
def mutateAgent (agents : List Agent) (agentId : String) (f : Agent → Agent) :
    List Agent :=
  match agents with
  | [] => []
  | a :: rest =>
    if a.id == agentId then f a :: rest else a :: mutateAgent rest agentId f

/-- Handler `GET /api/checkTokens`; `hasTokens` is what
`checkUserTokenBalance(publicKey)` resolved to. -/
def checkTokens (s : State) (publicKey : Field) (hasTokens : Bool) :
    State × Response :=
  match truthy publicKey with
  | none => (s, ⟨400, .error "Missing publicKey"⟩)
  | some publicKey =>
    if hasTokens then
      match usersDataGet s publicKey with
      | .absent =>
        ({ s with usersData := objSet s.usersData publicKey ⟨[]⟩ },
          ⟨200, .eligible true⟩)
      | _ => (s, ⟨200, .eligible true⟩)
    else (s, ⟨200, .eligible false⟩)

/-- Body of `POST /api/createAgent`. -/
structure CreateBody where
  publicKey : Field
  email : Field
  username : Field
  password : Field
  character : Field
deriving DecidableEq, Repr

/-- Body of `POST /api/updateAgent`. -/
structure UpdateBody where
  publicKey : Field
  agentId : Field
  email : Field
  username : Field
  password : Field
  character : Field
deriving DecidableEq, Repr

/-- Body or query of the requests that name an owner and a persona. -/
structure AgentRef where
  publicKey : Field
  agentId : Field
deriving DecidableEq, Repr

/-- Handler `POST /api/createAgent`; `uuid` is what `uuidv4()` returns when the
handler reaches it. -/
def createAgent (s : State) (body : CreateBody) (uuid : String) : State × Response :=
  match truthy body.publicKey, truthy body.email, truthy body.username,
      truthy body.password, truthy body.character with
  | some publicKey, some email, some username, some password, some character =>
    match usersDataGet s publicKey with
    | .absent => (s, ⟨403, .error "Not authorized"⟩)
    | .inherited => (s, ⟨500, .uncaught⟩)
    | .own user =>
      if user.agents.length ≥ 3 then (s, ⟨400, .error "Max agents reached"⟩)
      else
        let newAgent : Agent :=
          ⟨uuid, email, username, password, character, false, s.logArrays.length⟩
        ({ s with
            logArrays := s.logArrays ++ [[]],
            usersData := objSet s.usersData publicKey ⟨user.agents ++ [newAgent]⟩ },
          ⟨200, .successAgent newAgent⟩)
  | _, _, _, _, _ => (s, ⟨400, .error "Missing required fields"⟩)

/-- The four statements `if (field) agent.field = field;`. -/
def applyUpdate (body : UpdateBody) (agent : Agent) : Agent :=
  let a1 := match truthy body.email with
    | some v => { agent with email := v }
    | none => agent
  let a2 := match truthy body.username with
    | some v => { a1 with username := v }
    | none => a1
  let a3 := match truthy body.password with
    | some v => { a2 with password := v }
    | none => a2
  match truthy body.character with
  | some v => { a3 with character := v }
  | none => a3

/-- Handler `POST /api/updateAgent`. -/
def updateAgent (s : State) (body : UpdateBody) : State × Response :=
  match truthy body.publicKey, truthy body.agentId with
  | some publicKey, some agentId =>
    match usersDataGet s publicKey with
    | .absent => (s, ⟨403, .error "Not authorized"⟩)
    | .inherited => (s, ⟨500, .uncaught⟩)
    | .own user =>
      match findAgent user.agents agentId with
      | none => (s, ⟨404, .error "Agent not found"⟩)
      | some agent =>
        ({ s with
            usersData := objSet s.usersData publicKey
              ⟨mutateAgent user.agents agentId (applyUpdate body)⟩ },
          ⟨200, .successAgent (applyUpdate body agent)⟩)
  | _, _ => (s, ⟨400, .error "Missing publicKey or agentId"⟩)

/-- Handler `POST /api/deleteAgent`. -/
def deleteAgent (s : State) (body : AgentRef) : State × Response :=
  match truthy body.publicKey, truthy body.agentId with
  | some publicKey, some agentId =>
    match usersDataGet s publicKey with
    | .absent => (s, ⟨403, .error "Not authorized"⟩)
    | .inherited => (s, ⟨500, .uncaught⟩)
    | .own user =>
      match findAgentIndex user.agents agentId with
      | none => (s, ⟨404, .error "Agent not found"⟩)
      | some idx =>
        let s1 := match user.agents[idx]? with
          | some agent => if agent.running then stopAgentProcess s agentId else s
          | none => s
        ({ s1 with
            usersData := objSet s1.usersData publicKey ⟨user.agents.eraseIdx idx⟩ },
          ⟨200, .success⟩)
  | _, _ => (s, ⟨400, .error "Missing publicKey or agentId"⟩)

/-- Handler `POST /api/startAgent`; `now` is `new Date().toISOString()`.
The handler sets `agent.running` and pushes the log line before it calls
`startAgentProcess`, and has no `try`: when `spawn` throws, both writes stay
and the exception escapes the handler. -/
def startAgent (s : State) (body : AgentRef) (now : String) : State × Response :=
  match truthy body.publicKey, truthy body.agentId with
  | some publicKey, some agentId =>
    match usersDataGet s publicKey with
    | .absent => (s, ⟨403, .error "Not authorized"⟩)
    | .inherited => (s, ⟨500, .uncaught⟩)
    | .own user =>
      match findAgent user.agents agentId with
      | none => (s, ⟨404, .error "Agent not found"⟩)
      | some agent =>
        if agent.running then (s, ⟨200, .successMessage "Already running"⟩)
        else
          let s1 : State :=
            { s with
              usersData := objSet s.usersData publicKey
                ⟨mutateAgent user.agents agentId (fun a => { a with running := true })⟩,
              logArrays := updateLogs s.logArrays agent.logs
                (push ("[" ++ now ++ "] Agent started.")) }
          match startAgentProcess s1 { agent with running := true } with
          | some s2 => (s2, ⟨200, .success⟩)
          | none => (s1, ⟨500, .uncaught⟩)
  | _, _ => (s, ⟨400, .error "Missing publicKey or agentId"⟩)

/-- Handler `POST /api/stopAgent`; `now` is `new Date().toISOString()`. -/
def stopAgent (s : State) (body : AgentRef) (now : String) : State × Response :=
  match truthy body.publicKey, truthy body.agentId with
  | some publicKey, some agentId =>
    match usersDataGet s publicKey with
    | .absent => (s, ⟨403, .error "Not authorized"⟩)
    | .inherited => (s, ⟨500, .uncaught⟩)
    | .own user =>
      match findAgent user.agents agentId with
      | none => (s, ⟨404, .error "Agent not found"⟩)
      | some agent =>
        if !agent.running then (s, ⟨200, .successMessage "Already stopped"⟩)
        else
          let s1 : State :=
            { s with
              usersData := objSet s.usersData publicKey
                ⟨mutateAgent user.agents agentId (fun a => { a with running := false })⟩,
              logArrays := updateLogs s.logArrays agent.logs
                (push ("[" ++ now ++ "] Agent stopped.")) }
          (stopAgentProcess s1 agentId, ⟨200, .success⟩)
  | _, _ => (s, ⟨400, .error "Missing publicKey or agentId"⟩)

/-- Handler `GET /api/getAgents`. With an inherited property `user.agents` is
`undefined` and the answer is `{}` with status 200. -/
def getAgents (s : State) (publicKey : Field) : State × Response :=
  match truthy publicKey with
  | none => (s, ⟨400, .error "Missing publicKey"⟩)
  | some publicKey =>
    match usersDataGet s publicKey with
    | .absent => (s, ⟨403, .error "Not authorized"⟩)
    | .inherited => (s, ⟨200, .agents none⟩)
    | .own user => (s, ⟨200, .agents (some user.agents)⟩)

/-- Handler `GET /api/getAgentLogs`. -/
def getAgentLogs (s : State) (query : AgentRef) : State × Response :=
  match truthy query.publicKey, truthy query.agentId with
  | some publicKey, some agentId =>
    match usersDataGet s publicKey with
    | .absent => (s, ⟨403, .error "Not authorized"⟩)
    | .inherited => (s, ⟨500, .uncaught⟩)
    | .own user =>
      match findAgent user.agents agentId with
      | none => (s, ⟨404, .error "Agent not found"⟩)
      | some agent => (s, ⟨200, .logs (logsAt s agent.logs)⟩)
  | _, _ => (s, ⟨400, .error "Missing publicKey or agentId"⟩)

/-! ## Runs of the server -/

/-- Everything that can happen to the backend: a request arrives, or a child
process writes to a stream or exits. -/
inductive Event where
  | checkTokens (publicKey : Field) (hasTokens : Bool)
  | createAgent (body : CreateBody) (uuid : String)
  | updateAgent (body : UpdateBody)
  | deleteAgent (body : AgentRef)
  | startAgent (body : AgentRef) (now : String)
  | stopAgent (body : AgentRef) (now : String)
  | getAgents (publicKey : Field)
  | getAgentLogs (query : AgentRef)
  | stdout (pid : Nat) (data now : String)
  | stderr (pid : Nat) (data now : String)
  | exit (pid : Nat) (code : Option Nat) (now : String)
deriving DecidableEq, Repr

/-- State after one event. -/
def step (s : State) (e : Event) : State :=
  match e with
  | .checkTokens publicKey hasTokens => (checkTokens s publicKey hasTokens).1
  | .createAgent body uuid => (createAgent s body uuid).1
  | .updateAgent body => (updateAgent s body).1
  | .deleteAgent body => (deleteAgent s body).1
  | .startAgent body now => (startAgent s body now).1
  | .stopAgent body now => (stopAgent s body now).1
  | .getAgents publicKey => (getAgents s publicKey).1
  | .getAgentLogs query => (getAgentLogs s query).1
  | .stdout pid data now => onStdout s pid data now
  | .stderr pid data now => onStderr s pid data now
  | .exit pid code now => onExit s pid code now

/-- State after a sequence of events. -/
def run (s : State) (events : List Event) : State :=
  events.foldl step s

/-- The id `uuidv4()` hands out while an event is handled: one for a
`createAgent` request that gets as far as the call, none otherwise. -/
def generatedBy (s : State) (e : Event) : List String :=
  match e with
  | .createAgent body uuid =>
    if (createAgent s body uuid).2.status = 200 then [uuid] else []
  | _ => []

/-- The ids `uuidv4()` hands out along a run, in order. -/
def generatedIds (s : State) : List Event → List String
  | [] => []
  | e :: rest => generatedBy s e ++ generatedIds (step s e) rest

/-- Every persona of every owner, in storage order. -/
def personas (s : State) : List Agent :=
  s.usersData.flatMap (fun p => p.2.agents)

end Backend

namespace Runner

/-! ## Strings of `agent-runner.js` -/

/-- A JavaScript string: its UTF-16 code units. -/
abbrev JSString := List Nat

/-- The object literal `serifMap` of `toSerif`, keyed by the code unit of the
letter; every value is the surrogate pair of a glyph of the block
U+1D670..U+1D6A3. -/
def serifMap (c : Nat) : Option JSString :=
  match c with
  | 65 => some [55349, 56944] | 66 => some [55349, 56945] | 67 => some [55349, 56946] | 68 => some [55349, 56947]
  | 69 => some [55349, 56948] | 70 => some [55349, 56949] | 71 => some [55349, 56950] | 72 => some [55349, 56951]
  | 73 => some [55349, 56952] | 74 => some [55349, 56953] | 75 => some [55349, 56954] | 76 => some [55349, 56955]
  | 77 => some [55349, 56956] | 78 => some [55349, 56957] | 79 => some [55349, 56958] | 80 => some [55349, 56959]
  | 81 => some [55349, 56960] | 82 => some [55349, 56961] | 83 => some [55349, 56962] | 84 => some [55349, 56963]
  | 85 => some [55349, 56964] | 86 => some [55349, 56965] | 87 => some [55349, 56966] | 88 => some [55349, 56967]
  | 89 => some [55349, 56968] | 90 => some [55349, 56969]
  | 97 => some [55349, 56970] | 98 => some [55349, 56971] | 99 => some [55349, 56972] | 100 => some [55349, 56973]
  | 101 => some [55349, 56974] | 102 => some [55349, 56975] | 103 => some [55349, 56976] | 104 => some [55349, 56977]
  | 105 => some [55349, 56978] | 106 => some [55349, 56979] | 107 => some [55349, 56980] | 108 => some [55349, 56981]
  | 109 => some [55349, 56982] | 110 => some [55349, 56983] | 111 => some [55349, 56984] | 112 => some [55349, 56985]
  | 113 => some [55349, 56986] | 114 => some [55349, 56987] | 115 => some [55349, 56988] | 116 => some [55349, 56989]
  | 117 => some [55349, 56990] | 118 => some [55349, 56991] | 119 => some [55349, 56992] | 120 => some [55349, 56993]
  | 121 => some [55349, 56994] | 122 => some [55349, 56995]
  | _ => none

/-- Function `toSerif(text)`: `text.split('')` yields the code units, each is
replaced by `serifMap[char] || char`, and the pieces are joined. -/
def toSerif (text : JSString) : JSString :=
  text.flatMap (fun c => (serifMap c).getD [c])

/-- The array `glyphs` of `generateGlyphSymbol`. -/
def glyphs : List JSString :=
  [[0x2609], [0x263D], [0x263F], [0x2640], [0x2642], [0x2643], [0x2644], [0x2695],
   [0x2624], [0x262F], [0x262E], [0x269B]]

/-- Function `generateGlyphSymbol()` for the draw `pick` of `Math.random()`:
`glyphs[Math.floor(pick * glyphs.length)]`, the product taken exactly; `none`
is `undefined`. -/
def generateGlyphSymbol (pick : ℚ) : Option JSString :=
  if 0 ≤ ⌊pick * glyphs.length⌋ then glyphs[(⌊pick * glyphs.length⌋).toNat]? else none

/-- Text a template literal inserts for a value that may be `undefined`. -/
def templateText (v : Option JSString) : JSString :=
  match v with
  | some t => t
  | none => [117, 110, 100, 101, 102, 105, 110, 101, 100]

/-- Code units removed by `String.prototype.trim`. -/
def isTrimUnit (c : Nat) : Bool :=
  c ∈ [0x9, 0xA, 0xB, 0xC, 0xD, 0x20, 0xA0, 0x1680, 0x2028, 0x2029,
    0x202F, 0x205F, 0x3000, 0xFEFF] || (0x2000 ≤ c && c ≤ 0x200A)

/-- Method `String.prototype.trim`. -/
def trim (t : JSString) : JSString :=
  ((t.dropWhile isTrimUnit).reverse.dropWhile isTrimUnit).reverse

/-- Function `callOpenAI(prompt)`, given the `content` of the first choice of
the answer: `none` when the request fails and the function throws. -/
def callOpenAI (content : Option JSString) : Option JSString :=
  content.map trim

/-- Test `response.match(/[.!?]$/)`: the last code unit is `.`, `!` or `?`. -/
def endsWithTerminal (response : JSString) : Bool :=
  match response.getLast? with
  | some c => c == 46 || c == 33 || c == 63
  | none => false

/-- The double nearest to `0.1`, the right-hand side of `Math.random() < 0.1`. -/
def pointOne : ℚ := 3602879701896397 / 36028797018963968

/-- What one activation of `generateResponse` receives from outside: the
language-model answer and the two values of `Math.random()` (the second is
read only when the first is below `0.1`). -/
structure Attempt where
  content : Option JSString
  coin : ℚ
  pick : ℚ
deriving DecidableEq

/-- The statement `if (!response.match(/[.!?]$/)) response += '.'`. -/
def punctuate (response : JSString) : JSString :=
  if endsWithTerminal response then response else response ++ [46]

/-- The statement `if (Math.random() < 0.1) {...}`, which puts a glyph and a
space in front of the response. -/
def decorate (coin pick : ℚ) (response : JSString) : JSString :=
  if coin < pointOne then templateText (generateGlyphSymbol pick) ++ [32] ++ response
  else response

/-- The value of `response` after `response = toSerif(response)`, when the
model call succeeds. -/
def finalText (a : Attempt) : Option JSString :=
  match callOpenAI a.content with
  | none => none
  | some response => some (toSerif (decorate a.coin a.pick (punctuate response)))

/-- How a call of `generateResponse` ends: it returns a reply, it throws, or it
is still recursing when the supplied answers are used up. -/
inductive Outcome where
  | returned (reply : JSString)
  | threw
  | pending
deriving DecidableEq

/-- Function `generateResponse(tweetContent, userHandle)` run against the
answers of the outside world, one `Attempt` per activation. -/
def generateResponse : List Attempt → Outcome
  | [] => .pending
  | a :: rest =>
    match finalText a with
    | none => .threw
    | some response =>
      if response.length < 100 then generateResponse rest
      else .returned (response.take 250)

end Runner

namespace Backend

/-! ## Sample requests and runs -/

/-- An owner key as a wallet sends it. -/
def ownerKey : String := "7xKXtg2CW87d97TXJSDpbD5jBkheTqA83TZRuJosgAsU"

/-- A value of `uuidv4()`. -/
def personaId : String := "3b241101-e2bb-4255-8caf-4136c566a962"

/-- A value of `new Date().toISOString()`. -/
def sampleTime : String := "2024-05-01T12:00:00.000Z"

/-- A complete `createAgent` body of the sample owner. -/
def sampleCreate : CreateBody :=
  ⟨some ownerKey, some "bot@example.com", some "bot", some "hunter2", some "stoic poet"⟩

/-- Owner and id of the sample persona. -/
def sampleRef : AgentRef := ⟨some ownerKey, some personaId⟩

/-- The sample owner passes the balance check and creates one persona. -/
def setupRun : List Event :=
  [.checkTokens (some ownerKey) true, .createAgent sampleCreate personaId]

/-- The record `createAgent` stores for `sampleCreate` on a fresh server. -/
def samplePersona : Agent :=
  ⟨personaId, "bot@example.com", "bot", "hunter2", "stoic poet", false, 0⟩

/-- The sample persona is started and then stopped. -/
def startStopCycle : List Event :=
  [.startAgent sampleRef sampleTime, .stopAgent sampleRef sampleTime]

/-- The persona of `setupRun` is started and stopped 251 times. -/
def overflowRun : List Event :=
  setupRun ++ (List.replicate 251 startStopCycle).flatten

/-- The password `hunter`, U+0000, `2`. -/
def nulPassword : String := String.mk ['h', 'u', 'n', 't', 'e', 'r', nul, '2']

/-- A complete `createAgent` body of the sample owner whose password contains
U+0000. -/
def nulCreate : CreateBody :=
  ⟨some ownerKey, some "bot@example.com", some "bot", some nulPassword, some "stoic poet"⟩

/-- The record `createAgent` stores for `nulCreate` on a fresh server. -/
def nulPersona : Agent :=
  ⟨personaId, "bot@example.com", "bot", nulPassword, "stoic poet", false, 0⟩

/-- The sample owner passes the balance check and creates the persona of
`nulCreate`. -/
def nulSetupRun : List Event :=
  [.checkTokens (some ownerKey) true, .createAgent nulCreate personaId]

/-- The persona of `nulSetupRun` is asked to start. -/
def orphanRun : List Event :=
  nulSetupRun ++ [.startAgent sampleRef sampleTime]

/-- The sample owner creates three personas. -/
def fullRun : List Event :=
  [.checkTokens (some ownerKey) true,
   .createAgent sampleCreate "3b241101-e2bb-4255-8caf-4136c566a962",
   .createAgent sampleCreate "9c858901-8a57-4791-81fe-4c455b099bc9",
   .createAgent sampleCreate "16fd2706-8baf-433b-82eb-8c7fada847da"]

/-- An `updateAgent` body that supplies the empty string as `email`. -/
def emptyEmailUpdate : UpdateBody :=
  ⟨some ownerKey, some personaId, some "", none, none, none⟩

/-- An `updateAgent` body that supplies a new `username` and a new `character`. -/
def sampleUpdate : UpdateBody :=
  ⟨some ownerKey, some personaId, none, some "oracle", none, some "cheerful oracle"⟩

/-- A `createAgent` body whose owner key names an inherited property. -/
def inheritedCreate : CreateBody :=
  ⟨some "constructor", some "bot@example.com", some "bot", some "hunter2",
    some "stoic poet"⟩

/-- An `updateAgent` body whose owner key names an inherited property. -/
def inheritedUpdate : UpdateBody :=
  ⟨some "constructor", some personaId, none, some "oracle", none, none⟩

/-- An owner key that names an inherited property, with a persona id. -/
def inheritedRef : AgentRef := ⟨some "constructor", some personaId⟩

end Backend

namespace Runner

/-! ## Sample model answers -/

/-- Twenty letters `a`, no final punctuation, no glyph: the final text has 41
code units. -/
def shortAnswer : Attempt := ⟨some (List.replicate 20 97), 1 / 2, 0⟩

/-- Sixty letters `a`, no final punctuation, no glyph: the final text has 121
code units. -/
def fittingAnswer : Attempt := ⟨some (List.replicate 60 97), 1 / 2, 0⟩

/-- One hundred and twenty-six letters `a`, no final punctuation, no glyph: the
final text has 253 code units. -/
def longAnswer : Attempt := ⟨some (List.replicate 126 97), 1 / 2, 0⟩

/-! ## Vocabulary of the claims about `toSerif` -/

/-- Code units of the ASCII letters `A`-`Z` and `a`-`z`. -/
def isAsciiLetter (c : Nat) : Bool :=
  (65 ≤ c && c ≤ 90) || (97 ≤ c && c ≤ 122)

/-- What the specification puts in the place of one code unit: the table entry
for an ASCII letter, the code unit itself otherwise. -/
def replaceLetter (c : Nat) : JSString :=
  if isAsciiLetter c then (serifMap c).getD [] else [c]

/-- The transform as the specification words it: every code unit is replaced
in place by `replaceLetter` of it. -/
def toSerifSpec (text : JSString) : JSString :=
  (text.map replaceLetter).flatten

/-! ## The action cycle of `mainLoop` -/

/-- Constant `INTERACTION_INTERVAL.MIN`, in milliseconds. -/
def INTERACTION_INTERVAL.MIN : ℚ := 60 * 1000

/-- Constant `INTERACTION_INTERVAL.MAX`, in milliseconds. -/
def INTERACTION_INTERVAL.MAX : ℚ := 180 * 1000

/-- The value of `delay` in `mainLoop` for the draw `r` of `Math.random()`,
the arithmetic taken exactly. -/
def delay (r : ℚ) : ℤ :=
  ⌊r * (INTERACTION_INTERVAL.MAX - INTERACTION_INTERVAL.MIN + 1) + INTERACTION_INTERVAL.MIN⌋

/-! ## Counting the model calls of `generateResponse` -/

/-- Number of `callOpenAI` calls `generateResponse` has made on the given
answers when it returns, throws or has used them up: one per activation. -/
def modelCalls : List Attempt → Nat
  | [] => 0
  | a :: rest =>
    match finalText a with
    | none => 1
    | some response =>
      if response.length < 100 then 1 + modelCalls rest else 1

end Runner

namespace Backend

/-! ## Control requests and their status codes -/

/-- A request to one of the seven handlers that take an owner key. -/
inductive ControlRequest where
  | createAgent (body : CreateBody) (uuid : String)
  | updateAgent (body : UpdateBody)
  | deleteAgent (body : AgentRef)
  | startAgent (body : AgentRef) (now : String)
  | stopAgent (body : AgentRef) (now : String)
  | getAgents (publicKey : Field)
  | getAgentLogs (query : AgentRef)
deriving DecidableEq, Repr

/-- The answer of the handler the request is routed to. -/
def answer (s : State) : ControlRequest → Response
  | .createAgent body uuid => (createAgent s body uuid).2
  | .updateAgent body => (updateAgent s body).2
  | .deleteAgent body => (deleteAgent s body).2
  | .startAgent body now => (startAgent s body now).2
  | .stopAgent body now => (stopAgent s body now).2
  | .getAgents publicKey => (getAgents s publicKey).2
  | .getAgentLogs query => (getAgentLogs s query).2

/-- The fields the handler requires. -/
def requiredFields : ControlRequest → List Field
  | .createAgent body _ =>
    [body.publicKey, body.email, body.username, body.password, body.character]
  | .updateAgent body => [body.publicKey, body.agentId]
  | .deleteAgent body => [body.publicKey, body.agentId]
  | .startAgent body _ => [body.publicKey, body.agentId]
  | .stopAgent body _ => [body.publicKey, body.agentId]
  | .getAgents publicKey => [publicKey]
  | .getAgentLogs query => [query.publicKey, query.agentId]

/-- The field that carries the owner key. -/
def ownerField : ControlRequest → Field
  | .createAgent body _ => body.publicKey
  | .updateAgent body => body.publicKey
  | .deleteAgent body => body.publicKey
  | .startAgent body _ => body.publicKey
  | .stopAgent body _ => body.publicKey
  | .getAgents publicKey => publicKey
  | .getAgentLogs query => query.publicKey

/-- The field that names a persona; `createAgent` and `getAgents` name none. -/
def personaField : ControlRequest → Option Field
  | .createAgent _ _ => none
  | .updateAgent body => some body.agentId
  | .deleteAgent body => some body.agentId
  | .startAgent body _ => some body.agentId
  | .stopAgent body _ => some body.agentId
  | .getAgents _ => none
  | .getAgentLogs query => some query.agentId

/-- A required field is absent or the empty string. -/
def fieldMissing (r : ControlRequest) : Bool :=
  (requiredFields r).any (fun f => (truthy f).isNone)

/-- The owner key of the request is an own key of `usersData`. -/
def ownerRegistered (s : State) (r : ControlRequest) : Bool :=
  match truthy (ownerField r) with
  | some k => (objGet s.usersData k).isSome
  | none => false

/-- The request names a persona and the registered owner has none with that
id. -/
def personaUnknown (s : State) (r : ControlRequest) : Bool :=
  match truthy (ownerField r), personaField r with
  | some k, some f =>
    match objGet s.usersData k, truthy f with
    | some user, some agentId => (findAgent user.agents agentId).isNone
    | _, _ => false
  | _, _ => false

/-- The request is a `createAgent` of a registered owner who already has three
personas. -/
def limitReached (s : State) (r : ControlRequest) : Bool :=
  match r with
  | .createAgent body _ =>
    match truthy body.publicKey with
    | some k =>
      match objGet s.usersData k with
      | some user => decide (3 ≤ user.agents.length)
      | none => false
    | none => false
  | _ => false

/-- The request is a `startAgent` that gets as far as `spawn` and `spawn`
throws: the owner is registered, the persona exists and is not running, and one
of its credentials contains U+0000. -/
def spawnRejected (s : State) (r : ControlRequest) : Bool :=
  match r with
  | .startAgent body _ =>
    match truthy body.publicKey, truthy body.agentId with
    | some k, some agentId =>
      match objGet s.usersData k with
      | some user =>
        match findAgent user.agents agentId with
        | some agent => !agent.running && spawnThrows agent
        | none => false
      | none => false
    | _, _ => false
  | _ => false

end Backend

/-! # Lemmas -/

namespace Backend

/-! ## Objects as association lists -/

theorem objGet_split {α : Type} {o : List (String × α)} {k : String} {v : α}
    (h : objGet o k = some v) :
    ∃ pre post, o = pre ++ (k, v) :: post ∧ ∀ p ∈ pre, p.1 ≠ k := by
  induction o with
  | nil => simp [objGet] at h
  | cons p rest ih =>
    by_cases hp : p.1 = k
    · refine ⟨[], rest, ?_, by simp⟩
      have : v = p.2 := by simpa [objGet, List.find?_cons, hp] using h.symm
      subst this
      subst hp
      rfl
    · have hpk : (p.1 == k) = false := by simpa using hp
      have h' : objGet rest k = some v := by
        simpa [objGet, List.find?_cons, hpk] using h
      obtain ⟨pre, post, e, hpre⟩ := ih h'
      refine ⟨p :: pre, post, by simp [e], ?_⟩
      intro q hq
      rcases List.mem_cons.mp hq with rfl | hq
      · exact hp
      · exact hpre q hq

theorem objGet_eq_none {α : Type} {o : List (String × α)} {k : String} :
    objGet o k = none ↔ ∀ p ∈ o, p.1 ≠ k := by
  simp [objGet, List.find?_eq_none]

theorem objGet_mem {α : Type} {o : List (String × α)} {k : String} {v : α}
    (h : objGet o k = some v) : (k, v) ∈ o := by
  obtain ⟨pre, post, e, -⟩ := objGet_split h
  simp [e]

theorem objSet_absent {α : Type} {o : List (String × α)} {k : String} (v : α)
    (h : ∀ p ∈ o, p.1 ≠ k) : objSet o k v = o ++ [(k, v)] := by
  induction o with
  | nil => simp [objSet]
  | cons p rest ih =>
    have hp : p.1 ≠ k := h p (by simp)
    have := ih (fun q hq => h q (by simp [hq]))
    obtain ⟨k', v'⟩ := p
    simp at hp
    simp [objSet, hp, this]

/-! ## The `agents` array -/

theorem findAgent_split {agents : List Agent} {agentId : String} {a : Agent}
    (h : findAgent agents agentId = some a) :
    ∃ l1 l2, agents = l1 ++ a :: l2 ∧ a.id = agentId ∧ ∀ b ∈ l1, b.id ≠ agentId := by
  induction agents with
  | nil => simp [findAgent] at h
  | cons b rest ih =>
    by_cases hb : b.id = agentId
    · have : a = b := by simpa [findAgent, List.find?_cons, hb] using h.symm
      subst this
      exact ⟨[], rest, rfl, hb, by simp⟩
    · have hbk : (b.id == agentId) = false := by simpa using hb
      have h' : findAgent rest agentId = some a := by
        simpa [findAgent, List.find?_cons, hbk] using h
      obtain ⟨l1, l2, e, ha, hl1⟩ := ih h'
      refine ⟨b :: l1, l2, by simp [e], ha, ?_⟩
      intro q hq
      rcases List.mem_cons.mp hq with rfl | hq
      · exact hb
      · exact hl1 q hq

theorem findAgent_eq_none {agents : List Agent} {agentId : String} :
    findAgent agents agentId = none ↔ ∀ b ∈ agents, b.id ≠ agentId := by
  simp [findAgent, List.find?_eq_none]

theorem mutateAgent_split {l1 l2 : List Agent} {agentId : String} (a : Agent)
    (f : Agent → Agent) (ha : a.id = agentId) (hl1 : ∀ b ∈ l1, b.id ≠ agentId) :
    mutateAgent (l1 ++ a :: l2) agentId f = l1 ++ f a :: l2 := by
  induction l1 with
  | nil => simp [mutateAgent, ha]
  | cons b l1 ih =>
    have hb : b.id ≠ agentId := hl1 b (by simp)
    have := ih (fun q hq => hl1 q (by simp [hq]))
    simp [mutateAgent, hb, this]

theorem findAgentIndex_split {l1 l2 : List Agent} {agentId : String} (a : Agent)
    (ha : a.id = agentId) (hl1 : ∀ b ∈ l1, b.id ≠ agentId) :
    findAgentIndex (l1 ++ a :: l2) agentId = some l1.length := by
  induction l1 with
  | nil => simp [findAgentIndex, List.findIdx?, ha]
  | cons b l1 ih =>
    have hb : b.id ≠ agentId := hl1 b (by simp)
    have := ih (fun q hq => hl1 q (by simp [hq]))
    simp only [findAgentIndex] at this ⊢
    simp [List.findIdx?_cons, hb, this]

theorem findAgentIndex_eq_none {agents : List Agent} {agentId : String} :
    findAgentIndex agents agentId = none ↔ ∀ b ∈ agents, b.id ≠ agentId := by
  simp [findAgentIndex, List.findIdx?_eq_none_iff]

theorem usersDataGet_own {s : State} {k : String} {u : User} :
    usersDataGet s k = .own u ↔ objGet s.usersData k = some u := by
  unfold usersDataGet
  cases h : objGet s.usersData k with
  | some v => simp
  | none => by_cases hk : k ∈ objectPrototypeNames <;> simp [hk]

theorem usersDataGet_absent {s : State} {k : String} (h : usersDataGet s k = .absent) :
    objGet s.usersData k = none := by
  unfold usersDataGet at h
  cases hg : objGet s.usersData k with
  | some v => simp [hg] at h
  | none => rfl

/-! ## Case analysis of the handlers -/

theorem checkTokens_cases (s : State) (publicKey : Field) (hasTokens : Bool) :
    (checkTokens s publicKey hasTokens).1 = s ∨
    ∃ k, truthy publicKey = some k ∧ objGet s.usersData k = none ∧
      (checkTokens s publicKey hasTokens).1 =
        { s with usersData := s.usersData ++ [(k, ⟨[]⟩)] } := by
  unfold checkTokens
  split
  · left; rfl
  · rename_i k hk
    split
    · split
      · rename_i hu
        right
        have hn := usersDataGet_absent hu
        exact ⟨k, hk, hn, by simp [objSet_absent _ (objGet_eq_none.mp hn)]⟩
      · left; rfl
    · left; rfl

theorem createAgent_cases (s : State) (body : CreateBody) (uuid : String) :
    ((createAgent s body uuid).1 = s ∧ (createAgent s body uuid).2.status ≠ 200) ∨
    ∃ publicKey email username password character user,
      truthy body.publicKey = some publicKey ∧
      objGet s.usersData publicKey = some user ∧ user.agents.length < 3 ∧
      createAgent s body uuid =
        ({ s with
            logArrays := s.logArrays ++ [[]],
            usersData := objSet s.usersData publicKey
              ⟨user.agents ++
                [⟨uuid, email, username, password, character, false, s.logArrays.length⟩]⟩ },
          ⟨200, .successAgent
            ⟨uuid, email, username, password, character, false, s.logArrays.length⟩⟩) := by
  unfold createAgent
  split
  · rename_i publicKey email username password character h1 _ _ _ _
    split
    · left; exact ⟨rfl, by simp⟩
    · left; exact ⟨rfl, by simp⟩
    · rename_i user hu
      split
      · left; exact ⟨rfl, by simp⟩
      · rename_i hlen
        right
        exact ⟨publicKey, email, username, password, character, user, h1,
          usersDataGet_own.mp hu, by omega, rfl⟩
  · left; exact ⟨rfl, by simp⟩

theorem updateAgent_cases (s : State) (body : UpdateBody) :
    (updateAgent s body).1 = s ∨
    ∃ publicKey agentId user agent,
      truthy body.publicKey = some publicKey ∧ truthy body.agentId = some agentId ∧
      objGet s.usersData publicKey = some user ∧
      findAgent user.agents agentId = some agent ∧
      updateAgent s body =
        ({ s with
            usersData := objSet s.usersData publicKey
              ⟨mutateAgent user.agents agentId (applyUpdate body)⟩ },
          ⟨200, .successAgent (applyUpdate body agent)⟩) := by
  unfold updateAgent
  split
  · rename_i publicKey agentId h1 h2
    split
    · left; rfl
    · left; rfl
    · rename_i user hu
      split
      · left; rfl
      · rename_i agent ha
        right
        exact ⟨publicKey, agentId, user, agent, h1, h2, usersDataGet_own.mp hu, ha, rfl⟩
  · left; rfl

theorem startAgent_cases (s : State) (body : AgentRef) (now : String) :
    (startAgent s body now).1 = s ∨
    ∃ publicKey agentId user agent,
      truthy body.publicKey = some publicKey ∧ truthy body.agentId = some agentId ∧
      objGet s.usersData publicKey = some user ∧
      findAgent user.agents agentId = some agent ∧ agent.running = false ∧
      (startAgent s body now).1.usersData =
        objSet s.usersData publicKey
          ⟨mutateAgent user.agents agentId (fun a => { a with running := true })⟩ := by
  unfold startAgent
  split
  · rename_i publicKey agentId h1 h2
    split
    · left; rfl
    · left; rfl
    · rename_i user hu
      split
      · left; rfl
      · rename_i agent ha
        split
        · left; rfl
        · rename_i hr
          right
          refine ⟨publicKey, agentId, user, agent, h1, h2, usersDataGet_own.mp hu, ha,
            by simpa using hr, ?_⟩
          by_cases hsp : spawnThrows { agent with running := true } = true <;>
            simp [startAgentProcess, hsp]
  · left; rfl

theorem stopAgent_cases (s : State) (body : AgentRef) (now : String) :
    (stopAgent s body now).1 = s ∨
    ∃ publicKey agentId user agent,
      truthy body.publicKey = some publicKey ∧ truthy body.agentId = some agentId ∧
      objGet s.usersData publicKey = some user ∧
      findAgent user.agents agentId = some agent ∧ agent.running = true ∧
      stopAgent s body now =
        (stopAgentProcess
          { s with
            usersData := objSet s.usersData publicKey
              ⟨mutateAgent user.agents agentId (fun a => { a with running := false })⟩,
            logArrays := updateLogs s.logArrays agent.logs
              (push ("[" ++ now ++ "] Agent stopped.")) }
          agentId, ⟨200, .success⟩) := by
  unfold stopAgent
  split
  · rename_i publicKey agentId h1 h2
    split
    · left; rfl
    · left; rfl
    · rename_i user hu
      split
      · left; rfl
      · rename_i agent ha
        split
        · left; rfl
        · rename_i hr
          right
          exact ⟨publicKey, agentId, user, agent, h1, h2, usersDataGet_own.mp hu, ha,
            by simpa using hr, rfl⟩
  · left; rfl

theorem deleteAgent_cases (s : State) (body : AgentRef) :
    (deleteAgent s body).1 = s ∨
    ∃ publicKey agentId user idx,
      truthy body.publicKey = some publicKey ∧ truthy body.agentId = some agentId ∧
      objGet s.usersData publicKey = some user ∧
      findAgentIndex user.agents agentId = some idx ∧
      deleteAgent s body =
        ({ (match user.agents[idx]? with
              | some agent => if agent.running then stopAgentProcess s agentId else s
              | none => s) with
            usersData := objSet
              (match user.agents[idx]? with
                | some agent => if agent.running then stopAgentProcess s agentId else s
                | none => s).usersData publicKey ⟨user.agents.eraseIdx idx⟩ },
          ⟨200, .success⟩) := by
  unfold deleteAgent
  split
  · rename_i publicKey agentId h1 h2
    split
    · left; rfl
    · left; rfl
    · rename_i user hu
      split
      · left; rfl
      · rename_i idx hi
        right
        exact ⟨publicKey, agentId, user, idx, h1, h2, usersDataGet_own.mp hu, hi, rfl⟩
  · left; rfl

theorem getAgents_state (s : State) (publicKey : Field) : (getAgents s publicKey).1 = s := by
  unfold getAgents
  split
  · rfl
  · split <;> rfl

theorem getAgentLogs_state (s : State) (query : AgentRef) :
    (getAgentLogs s query).1 = s := by
  unfold getAgentLogs
  split
  · split
    · rfl
    · rfl
    · split <;> rfl
  · rfl

/-! ## Effect of `stopAgentProcess` -/

theorem stopAgentProcess_usersData (s : State) (agentId : String) :
    (stopAgentProcess s agentId).usersData = s.usersData := by
  unfold stopAgentProcess
  cases signalDue s agentId with
  | none => rfl
  | some pid =>
    simp only [kill]
    cases s.children[pid]? <;> rfl

theorem stopAgentProcess_logArrays (s : State) (agentId : String) :
    (stopAgentProcess s agentId).logArrays = s.logArrays := by
  unfold stopAgentProcess
  cases signalDue s agentId with
  | none => rfl
  | some pid =>
    simp only [kill]
    cases s.children[pid]? <;> rfl

/-! ## Fields `applyUpdate` leaves alone -/

theorem applyUpdate_id (body : UpdateBody) (a : Agent) : (applyUpdate body a).id = a.id := by
  unfold applyUpdate
  cases truthy body.email <;> cases truthy body.username <;>
    cases truthy body.password <;> cases truthy body.character <;> rfl

theorem applyUpdate_running (body : UpdateBody) (a : Agent) :
    (applyUpdate body a).running = a.running := by
  unfold applyUpdate
  cases truthy body.email <;> cases truthy body.username <;>
    cases truthy body.password <;> cases truthy body.character <;> rfl

theorem applyUpdate_logs (body : UpdateBody) (a : Agent) :
    (applyUpdate body a).logs = a.logs := by
  unfold applyUpdate
  cases truthy body.email <;> cases truthy body.username <;>
    cases truthy body.password <;> cases truthy body.character <;> rfl

/-! ## The limit of three personas -/

theorem mem_objSet {α : Type} {o : List (String × α)} {k : String} {v : α}
    {p : String × α} (h : p ∈ objSet o k v) : p ∈ o ∨ p = (k, v) := by
  induction o with
  | nil => right; simpa [objSet] using h
  | cons q rest ih =>
    obtain ⟨k', v'⟩ := q
    by_cases hk : k' = k
    · simp only [objSet, hk, beq_self_eq_true, if_true] at h
      rcases List.mem_cons.mp h with h | h
      · exact Or.inr h
      · exact Or.inl (List.mem_cons_of_mem _ h)
    · have hk' : (k' == k) = false := by simpa using hk
      simp only [objSet, hk'] at h
      rcases List.mem_cons.mp h with h | h
      · exact Or.inl (h ▸ List.mem_cons_self _ _)
      · rcases ih h with h | h
        · exact Or.inl (List.mem_cons_of_mem _ h)
        · exact Or.inr h

theorem mutateAgent_length (agents : List Agent) (agentId : String) (f : Agent → Agent) :
    (mutateAgent agents agentId f).length = agents.length := by
  induction agents with
  | nil => rfl
  | cons a rest ih =>
    by_cases h : a.id = agentId
    · simp [mutateAgent, h]
    · simp [mutateAgent, h, ih]

theorem atMostThree_objSet {ud : List (String × User)} {k : String} {user : User}
    (agents : List Agent) (h : ∀ p ∈ ud, p.2.agents.length ≤ 3)
    (hu : objGet ud k = some user) (hlen : agents.length ≤ user.agents.length ∨ agents.length ≤ 3) :
    ∀ p ∈ objSet ud k ⟨agents⟩, p.2.agents.length ≤ 3 := by
  intro p hp
  rcases mem_objSet hp with hp | rfl
  · exact h p hp
  · have := h _ (objGet_mem hu)
    simp only at this ⊢
    omega

theorem atMostThree_step (s : State) (e : Event)
    (h : ∀ p ∈ s.usersData, p.2.agents.length ≤ 3) :
    ∀ p ∈ (step s e).usersData, p.2.agents.length ≤ 3 := by
  cases e with
  | checkTokens publicKey hasTokens =>
    rcases checkTokens_cases s publicKey hasTokens with he | ⟨k, -, -, he⟩
    · simp only [step, he]; exact h
    · simp only [step, he]
      intro p hp
      rcases List.mem_append.mp hp with hp | hp
      · exact h p hp
      · simp at hp; subst hp; simp
  | createAgent body uuid =>
    rcases createAgent_cases s body uuid with ⟨he, -⟩ | ⟨k, _, _, _, _, user, -, hu, hlt, he⟩
    · simp only [step, he]; exact h
    · simp only [step, he]
      exact atMostThree_objSet _ h hu (Or.inr (by simp; omega))
  | updateAgent body =>
    rcases updateAgent_cases s body with he | ⟨k, agentId, user, a, -, -, hu, -, he⟩
    · simp only [step, he]; exact h
    · simp only [step, he]
      exact atMostThree_objSet _ h hu (Or.inl (by rw [mutateAgent_length]))
  | deleteAgent body =>
    rcases deleteAgent_cases s body with he | ⟨k, agentId, user, idx, -, -, hu, -, he⟩
    · simp only [step, he]; exact h
    · simp only [step, he]
      have hud : (match user.agents[idx]? with
          | some agent => if agent.running then stopAgentProcess s agentId else s
          | none => s).usersData = s.usersData := by
        split
        · split
          · exact stopAgentProcess_usersData s agentId
          · rfl
        · rfl
      rw [hud]
      exact atMostThree_objSet _ h hu (Or.inl (List.length_eraseIdx_le _ _))
  | startAgent body now =>
    rcases startAgent_cases s body now with he | ⟨k, agentId, user, a, -, -, hu, -, -, he⟩
    · simp only [step, he]; exact h
    · simp only [step, he]
      exact atMostThree_objSet _ h hu (Or.inl (by rw [mutateAgent_length]))
  | stopAgent body now =>
    rcases stopAgent_cases s body now with he | ⟨k, agentId, user, a, -, -, hu, -, -, he⟩
    · simp only [step, he]; exact h
    · simp only [step, he, stopAgentProcess_usersData]
      exact atMostThree_objSet _ h hu (Or.inl (by rw [mutateAgent_length]))
  | getAgents publicKey => simpa [step, getAgents_state] using h
  | getAgentLogs query => simpa [step, getAgentLogs_state] using h
  | stdout pid data now =>
    simp only [step, onStdout]
    cases s.children[pid]? <;> exact h
  | stderr pid data now =>
    simp only [step, onStderr]
    cases s.children[pid]? <;> exact h
  | exit pid code now =>
    simp only [step, onExit]
    cases s.children[pid]? <;> exact h

theorem atMostThree_run (events : List Event) (s : State)
    (h : ∀ p ∈ s.usersData, p.2.agents.length ≤ 3) :
    ∀ p ∈ (run s events).usersData, p.2.agents.length ≤ 3 := by
  induction events generalizing s with
  | nil => exact h
  | cons e rest ih => exact ih (step s e) (atMostThree_step s e h)

/-! ## The handlers on a request that names a persona -/

theorem usersDataGet_of_objGet {s : State} {k : String} {user : User}
    (hu : objGet s.usersData k = some user) : usersDataGet s k = .own user := by
  simp [usersDataGet, hu]

theorem startAgent_eq {s : State} {body : AgentRef} {k agentId : String} {user : User}
    {a : Agent} (now : String) (hk : truthy body.publicKey = some k)
    (hid : truthy body.agentId = some agentId)
    (hu : objGet s.usersData k = some user) (ha : findAgent user.agents agentId = some a) :
    startAgent s body now =
      if a.running then (s, ⟨200, .successMessage "Already running"⟩)
      else
        match startAgentProcess
          { s with
            usersData := objSet s.usersData k
              ⟨mutateAgent user.agents agentId (fun a => { a with running := true })⟩,
            logArrays := updateLogs s.logArrays a.logs
              (push ("[" ++ now ++ "] Agent started.")) }
          { a with running := true } with
        | some s2 => (s2, ⟨200, .success⟩)
        | none =>
          ({ s with
            usersData := objSet s.usersData k
              ⟨mutateAgent user.agents agentId (fun a => { a with running := true })⟩,
            logArrays := updateLogs s.logArrays a.logs
              (push ("[" ++ now ++ "] Agent started.")) }, ⟨500, .uncaught⟩) := by
  simp only [startAgent, hk, hid, usersDataGet_of_objGet hu, ha]

theorem stopAgent_eq {s : State} {body : AgentRef} {k agentId : String} {user : User}
    {a : Agent} (now : String) (hk : truthy body.publicKey = some k)
    (hid : truthy body.agentId = some agentId)
    (hu : objGet s.usersData k = some user) (ha : findAgent user.agents agentId = some a) :
    stopAgent s body now =
      if !a.running then (s, ⟨200, .successMessage "Already stopped"⟩)
      else
        (stopAgentProcess
          { s with
            usersData := objSet s.usersData k
              ⟨mutateAgent user.agents agentId (fun a => { a with running := false })⟩,
            logArrays := updateLogs s.logArrays a.logs
              (push ("[" ++ now ++ "] Agent stopped.")) }
          agentId, ⟨200, .success⟩) := by
  simp only [stopAgent, hk, hid, usersDataGet_of_objGet hu, ha]

theorem updateAgent_eq {s : State} {body : UpdateBody} {k agentId : String} {user : User}
    {a : Agent} (hk : truthy body.publicKey = some k)
    (hid : truthy body.agentId = some agentId)
    (hu : objGet s.usersData k = some user) (ha : findAgent user.agents agentId = some a) :
    updateAgent s body =
      ({ s with
          usersData := objSet s.usersData k
            ⟨mutateAgent user.agents agentId (applyUpdate body)⟩ },
        ⟨200, .successAgent (applyUpdate body a)⟩) := by
  simp only [updateAgent, hk, hid, usersDataGet_of_objGet hu, ha]

theorem objGet_objSet_other {α : Type} (o : List (String × α)) {k k' : String} (v : α)
    (h : k' ≠ k) : objGet (objSet o k v) k' = objGet o k' := by
  induction o with
  | nil =>
    have : (k == k') = false := by simpa using h.symm
    simp [objSet, objGet, List.find?_cons, this]
  | cons p rest ih =>
    obtain ⟨k0, v0⟩ := p
    by_cases hk : k0 = k
    · have h1 : (k == k') = false := by simpa using h.symm
      have h2 : (k0 == k') = false := by rw [hk]; exact h1
      simp [objSet, objGet, hk, List.find?_cons, h1]
    · have hk' : (k0 == k) = false := by simpa using hk
      simp only [objSet, hk']
      by_cases h0 : k0 = k'
      · simp [objGet, List.find?_cons, h0]
      · have h0' : (k0 == k') = false := by simpa using h0
        simpa [objGet, List.find?_cons, h0'] using ih

end Backend

namespace Runner

theorem generateResponse_returned {env : List Attempt} {reply : JSString}
    (h : generateResponse env = .returned reply) :
    ∃ a ∈ env, ∃ t, finalText a = some t ∧ 100 ≤ t.length ∧ reply = t.take 250 := by
  induction env with
  | nil => simp [generateResponse] at h
  | cons a rest ih =>
    unfold generateResponse at h
    cases ht : finalText a with
    | none => simp [ht] at h
    | some t =>
      simp only [ht] at h
      by_cases hlen : t.length < 100
      · simp only [hlen, if_true] at h
        obtain ⟨b, hb, u, hu⟩ := ih h
        exact ⟨b, List.mem_cons_of_mem _ hb, u, hu⟩
      · simp only [hlen, if_false] at h
        injection h with h
        exact ⟨a, by simp, t, ht, by omega, h.symm⟩

theorem endsWithTerminal_iff {r : JSString} :
    endsWithTerminal r = true ↔ ∃ l c, r = l ++ [c] ∧ (c = 46 ∨ c = 33 ∨ c = 63) := by
  unfold endsWithTerminal
  rcases List.eq_nil_or_concat r with rfl | ⟨l, c, rfl⟩
  · simp
  · rw [List.concat_eq_append]
    have hlast : (l ++ [c]).getLast? = some c := by simp
    rw [hlast]
    simp only [Bool.or_eq_true, beq_iff_eq]
    constructor
    · intro h; exact ⟨l, c, rfl, by tauto⟩
    · rintro ⟨l', c', e, h⟩
      have hc : c = c' := by
        have := (List.append_inj' e rfl).2
        simpa using this
      rw [hc]; tauto

theorem endsWithTerminal_append {x r : JSString} (h : endsWithTerminal r = true) :
    endsWithTerminal (x ++ r) = true := by
  obtain ⟨l, c, rfl, hc⟩ := endsWithTerminal_iff.mp h
  exact endsWithTerminal_iff.mpr ⟨x ++ l, c, by simp, hc⟩

theorem endsWithTerminal_punctuate (r : JSString) : endsWithTerminal (punctuate r) = true := by
  unfold punctuate
  by_cases h : endsWithTerminal r = true
  · simp [h]
  · simp only [h]
    exact endsWithTerminal_iff.mpr ⟨r, 46, rfl, Or.inl rfl⟩

theorem endsWithTerminal_decorate (coin pick : ℚ) {r : JSString}
    (h : endsWithTerminal r = true) : endsWithTerminal (decorate coin pick r) = true := by
  unfold decorate
  split
  · exact endsWithTerminal_append h
  · exact h

theorem endsWithTerminal_toSerif {r : JSString} (h : endsWithTerminal r = true) :
    endsWithTerminal (toSerif r) = true := by
  obtain ⟨l, c, rfl, hc⟩ := endsWithTerminal_iff.mp h
  refine endsWithTerminal_iff.mpr ⟨toSerif l, c, ?_, hc⟩
  have hmap : serifMap c = none := by
    rcases hc with rfl | rfl | rfl <;> rfl
  unfold toSerif
  rw [List.flatMap_append]
  simp [hmap]

theorem endsWithTerminal_finalText {a : Attempt} {t : JSString} (h : finalText a = some t) :
    endsWithTerminal t = true := by
  unfold finalText at h
  cases hc : callOpenAI a.content with
  | none => simp [hc] at h
  | some r =>
    simp only [hc, Option.some.injEq] at h
    rw [← h]
    exact endsWithTerminal_toSerif (endsWithTerminal_decorate _ _ (endsWithTerminal_punctuate r))

end Runner

namespace Backend

/-! # The claims -/

/-! ## C1: size of the log buffer -/

theorem updateLogs_length (arrays : List (List String)) (r : Nat)
    (f : List String → List String) : (updateLogs arrays r f).length = arrays.length := by
  unfold updateLogs
  cases arrays[r]? <;> simp

theorem updateLogs_getD (arrays : List (List String)) (r : Nat)
    (f : List String → List String) (h : r < arrays.length) :
    (updateLogs arrays r f).getD r [] = f (arrays.getD r []) := by
  unfold updateLogs
  have : arrays[r]? = some arrays[r] := List.getElem?_eq_getElem h
  simp [this, List.getD_eq_getElem?_getD, h]

theorem run_append (s : State) (xs ys : List Event) :
    run s (xs ++ ys) = run (run s xs) ys := by
  simp [run, List.foldl_append]

theorem startStopCycle_logs (s : State)
    (hU : s.usersData = [(ownerKey, ⟨[samplePersona]⟩)]) (hL : 0 < s.logArrays.length) :
    (run s startStopCycle).usersData = [(ownerKey, ⟨[samplePersona]⟩)] ∧
    0 < (run s startStopCycle).logArrays.length ∧
    (logsAt (run s startStopCycle) 0).length = (logsAt s 0).length + 2 := by
  have h1 := @startAgent_eq s sampleRef ownerKey personaId ⟨[samplePersona]⟩ samplePersona
    sampleTime (by decide) (by decide) (by rw [hU]; decide) (by decide)
  have hrun : samplePersona.running = false := rfl
  have hsp : spawnThrows { samplePersona with running := true } = false := by decide
  simp only [hrun, Bool.false_eq_true, if_false, startAgentProcess, hsp] at h1
  have hU1 : (startAgent s sampleRef sampleTime).1.usersData =
      [(ownerKey, ⟨[{ samplePersona with running := true }]⟩)] := by
    rw [h1]; simp only [hU]; decide
  have hL1 : (startAgent s sampleRef sampleTime).1.logArrays =
      updateLogs s.logArrays 0 (push ("[" ++ sampleTime ++ "] Agent started.")) := by
    rw [h1]; rfl
  have h2 := @stopAgent_eq (startAgent s sampleRef sampleTime).1 sampleRef ownerKey personaId
    ⟨[{ samplePersona with running := true }]⟩ { samplePersona with running := true }
    sampleTime (by decide) (by decide) (by rw [hU1]; decide) (by decide)
  simp only [Bool.not_true, Bool.false_eq_true, if_false] at h2
  have hrunEq : run s startStopCycle =
      (stopAgent (startAgent s sampleRef sampleTime).1 sampleRef sampleTime).1 := rfl
  rw [hrunEq, h2]
  refine ⟨?_, ?_, ?_⟩
  · simp only [stopAgentProcess_usersData, hU1]; decide
  · simp only [stopAgentProcess_logArrays, hL1, updateLogs_length]; exact hL
  · have hlogs : samplePersona.logs = 0 := rfl
    simp only [logsAt, stopAgentProcess_logArrays, hL1, hlogs]
    rw [updateLogs_getD _ _ _ (by rw [updateLogs_length]; exact hL),
      updateLogs_getD _ _ _ hL]
    simp [push, samplePersona]

theorem startStopCycles_logs (n : Nat) (s : State)
    (hU : s.usersData = [(ownerKey, ⟨[samplePersona]⟩)]) (hL : 0 < s.logArrays.length) :
    (run s (List.replicate n startStopCycle).flatten).usersData
      = [(ownerKey, ⟨[samplePersona]⟩)] ∧
    (logsAt (run s (List.replicate n startStopCycle).flatten) 0).length
      = (logsAt s 0).length + 2 * n := by
  induction n generalizing s with
  | zero => exact ⟨hU, rfl⟩
  | succ n ih =>
    obtain ⟨hU', hL', hlen⟩ := startStopCycle_logs s hU hL
    rw [List.replicate_succ, List.flatten_cons, run_append]
    obtain ⟨hU2, hlen2⟩ := ih (run s startStopCycle) hU' hL'
    exact ⟨hU2, by rw [hlen2, hlen]; omega⟩

/-- C1 (the code breaks the bound): after the owner has registered, created one
persona and started and stopped it 251 times, that persona is still listed
and its log buffer holds 502 entries, more than the 500 the spec allows.
The two handlers push their entry without the eviction the stream handlers do. -/
theorem C1_log_buffer_exceeds_500 :
    samplePersona ∈ personas (run init overflowRun) ∧
    (logsAt (run init overflowRun) samplePersona.logs).length = 502 := by
  have hsetup : run init setupRun =
      ⟨[(ownerKey, ⟨[samplePersona]⟩)], [], [[]], [], []⟩ := by decide
  have h := startStopCycles_logs 251 (run init setupRun) (by rw [hsetup]) (by rw [hsetup]; decide)
  rw [overflowRun, run_append]
  refine ⟨?_, ?_⟩
  · simp only [personas, h.1]; decide
  · have h0 : (logsAt (run init setupRun) 0).length = 0 := by rw [hsetup]; rfl
    have := h.2
    rw [h0] at this
    exact this

/-! ## C2: the running flag and the process registry -/

/-- C2 (the code breaks the invariant): the sample owner passes the balance
check, creates a persona whose password contains U+0000 and asks to start it.
One id was generated, so the ids are pairwise distinct. `spawn` throws on the
password, the request ends in an uncaught exception (status 500), and the state
it leaves lists the persona with `running = true` while `agentProcesses` has no
entry under its id and no child exists: an orphaned flag. -/
theorem C2_orphaned_running_flag :
    (generatedIds init orphanRun).Nodup ∧
    run init nulSetupRun = ⟨[(ownerKey, ⟨[nulPersona]⟩)], [], [[]], [], []⟩ ∧
    spawnThrows nulPersona = true ∧
    startAgent (run init nulSetupRun) sampleRef sampleTime =
      (run init orphanRun, ⟨500, .uncaught⟩) ∧
    run init orphanRun =
      ⟨[(ownerKey, ⟨[{ nulPersona with running := true }]⟩)], [],
        [["[2024-05-01T12:00:00.000Z] Agent started."]], [], []⟩ ∧
    (∃ p ∈ (run init orphanRun).usersData, ∃ a ∈ p.2.agents,
      a.id = personaId ∧ a.running = true ∧
      ¬ ∃ entry, (a.id, entry) ∈ (run init orphanRun).agentProcesses) := by
  have hrun : run init orphanRun =
      ⟨[(ownerKey, ⟨[{ nulPersona with running := true }]⟩)], [],
        [["[2024-05-01T12:00:00.000Z] Agent started."]], [], []⟩ := by decide
  refine ⟨by decide, by decide, by decide, by decide, hrun, ?_⟩
  rw [hrun]
  exact ⟨(ownerKey, ⟨[{ nulPersona with running := true }]⟩), by simp,
    { nulPersona with running := true }, by simp, rfl, rfl, by simp⟩

/-! ## C3: at most three personas per owner -/

/-- C3: a complete `createAgent` request of a registered owner who already has
three personas is answered 400 "Max agents reached" and changes nothing; and in
every state reached from the initial one no owner has more than three
personas. -/
theorem C3_createAgent_limit (s : State) (body : CreateBody) (uuid publicKey : String)
    (user : User) (events : List Event)
    (hk : truthy body.publicKey = some publicKey)
    (he : (truthy body.email).isSome) (hn : (truthy body.username).isSome)
    (hp : (truthy body.password).isSome) (hc : (truthy body.character).isSome)
    (hu : objGet s.usersData publicKey = some user) (hlen : 3 ≤ user.agents.length) :
    createAgent s body uuid = (s, ⟨400, .error "Max agents reached"⟩) ∧
    ∀ p ∈ (run init events).usersData, p.2.agents.length ≤ 3 := by
  constructor
  · obtain ⟨e, he⟩ := Option.isSome_iff_exists.mp he
    obtain ⟨n, hn⟩ := Option.isSome_iff_exists.mp hn
    obtain ⟨p, hp⟩ := Option.isSome_iff_exists.mp hp
    obtain ⟨c, hc⟩ := Option.isSome_iff_exists.mp hc
    simp only [createAgent, hk, he, hn, hp, hc, usersDataGet_of_objGet hu]
    simp [hlen]
  · exact atMostThree_run events init (by simp [init])

/-- C3 at a concrete state: the sample owner has created three personas and
asks for a fourth. -/
theorem C3_createAgent_limit_witness :
    createAgent (run init fullRun) sampleCreate personaId =
      (run init fullRun, ⟨400, .error "Max agents reached"⟩) ∧
    ∀ p ∈ (run init fullRun).usersData, p.2.agents.length ≤ 3 :=
  C3_createAgent_limit (run init fullRun) sampleCreate personaId ownerKey
    ⟨(personas (run init fullRun))⟩ fullRun (by decide) (by decide) (by decide) (by decide)
    (by decide) (by decide) (by decide)

/-! ## C4: owner keys that name inherited properties -/

/-- C4 (the code breaks the claim): on a fresh server, where no key has passed
the balance check, requests under the owner key `constructor` are not answered
403: `getAgents` answers 200 with no `agents` field, and `createAgent`,
`updateAgent`, `deleteAgent`, `startAgent`, `stopAgent` and `getAgentLogs` end
in an uncaught `TypeError` (status 500). A key that names no inherited property
gets 403. -/
theorem C4_inherited_owner_key :
    getAgents init (some "constructor") = (init, ⟨200, .agents none⟩) ∧
    createAgent init inheritedCreate personaId = (init, ⟨500, .uncaught⟩) ∧
    updateAgent init inheritedUpdate = (init, ⟨500, .uncaught⟩) ∧
    deleteAgent init inheritedRef = (init, ⟨500, .uncaught⟩) ∧
    startAgent init inheritedRef sampleTime = (init, ⟨500, .uncaught⟩) ∧
    stopAgent init inheritedRef sampleTime = (init, ⟨500, .uncaught⟩) ∧
    getAgentLogs init inheritedRef = (init, ⟨500, .uncaught⟩) ∧
    getAgents init (some ownerKey) = (init, ⟨403, .error "Not authorized"⟩) ∧
    createAgent init sampleCreate personaId = (init, ⟨403, .error "Not authorized"⟩) := by
  decide

/-! ## C5: deleting a running persona -/

/-- C5 (the code breaks the claim): after the run of C2 the sample owner is
registered and owns a persona with `running = true`, under the one id that was
generated. A `deleteAgent` request for it is answered with success and removes
the persona, but `stopAgentProcess` finds no entry under the id: no signal is
due, and no `kill` call has been recorded before or after the request. -/
theorem C5_delete_orphaned_no_signal :
    (generatedIds init orphanRun).Nodup ∧
    objGet (run init orphanRun).usersData ownerKey =
      some ⟨[{ nulPersona with running := true }]⟩ ∧
    objGet (run init orphanRun).agentProcesses personaId = none ∧
    signalDue (run init orphanRun) personaId = none ∧
    (run init orphanRun).killCalls = [] ∧
    deleteAgent (run init orphanRun) sampleRef =
      (⟨[(ownerKey, ⟨[]⟩)], [], [["[2024-05-01T12:00:00.000Z] Agent started."]], [], []⟩,
        ⟨200, .success⟩) ∧
    (deleteAgent (run init orphanRun) sampleRef).1.killCalls = [] := by
  decide

/-! ## C6: starting twice -/

/-- C6 (the code breaks the claim): the sample owner is registered and owns a
persona, not running, whose password contains U+0000. The first `startAgent`
request for it does not return success: `spawn` throws and the request ends in
an uncaught exception (status 500), after the handler has set `running`. The
second request is answered with success ("Already running") and changes
nothing, and no child has been spawned by either. -/
theorem C6_first_start_uncaught :
    objGet (run init nulSetupRun).usersData ownerKey = some ⟨[nulPersona]⟩ ∧
    nulPersona.running = false ∧
    (startAgent (run init nulSetupRun) sampleRef sampleTime).2 = ⟨500, .uncaught⟩ ∧
    startAgent (startAgent (run init nulSetupRun) sampleRef sampleTime).1 sampleRef sampleTime =
      ((startAgent (run init nulSetupRun) sampleRef sampleTime).1,
        ⟨200, .successMessage "Already running"⟩) ∧
    (startAgent (run init nulSetupRun) sampleRef sampleTime).1.children = [] ∧
    (startAgent (run init nulSetupRun) sampleRef sampleTime).1.agentProcesses = [] := by
  decide

/-! ## C7: stopping a stopped persona -/

/-- C7: for a registered owner, a `stopAgent` request whose id resolves to a
persona of the owner with `running = false` is answered with success ("Already
stopped") and returns the state unchanged: no `kill` call is recorded,
`agentProcesses` is the same, and every persona and every log array is the
same. -/
theorem C7_stopAgent_stopped (s : State) (body : AgentRef) (now k agentId : String)
    (user : User) (a : Agent)
    (hk : truthy body.publicKey = some k) (hid : truthy body.agentId = some agentId)
    (hu : objGet s.usersData k = some user)
    (ha : findAgent user.agents agentId = some a) (hr : a.running = false) :
    stopAgent s body now = (s, ⟨200, .successMessage "Already stopped"⟩) := by
  rw [stopAgent_eq now hk hid hu ha]
  simp [hr]

/-- C7 at a concrete state: the sample persona has never been started. -/
theorem C7_stopAgent_stopped_witness :
    stopAgent (run init setupRun) sampleRef sampleTime =
      (run init setupRun, ⟨200, .successMessage "Already stopped"⟩) :=
  C7_stopAgent_stopped (run init setupRun) sampleRef sampleTime ownerKey personaId
    ⟨[samplePersona]⟩ samplePersona (by decide) (by decide) (by decide) (by decide) rfl

/-! ## C8: partial update -/

/-- C8 as stated fails: a successful `updateAgent` request that supplies the
empty string as `email` leaves the stored email as it was. -/
theorem C8_empty_string_not_stored :
    emptyEmailUpdate.email = some "" ∧
    updateAgent (run init setupRun) emptyEmailUpdate =
      (run init setupRun, ⟨200, .successAgent samplePersona⟩) ∧
    samplePersona.email = "bot@example.com" := by
  decide

theorem updateAgent_success {s : State} {body : UpdateBody}
    (h : (updateAgent s body).2.status = 200) :
    ∃ k agentId user a,
      truthy body.publicKey = some k ∧ truthy body.agentId = some agentId ∧
      objGet s.usersData k = some user ∧ findAgent user.agents agentId = some a := by
  unfold updateAgent at h
  split at h
  · rename_i k agentId h1 h2
    split at h
    · simp at h
    · simp at h
    · rename_i user hu
      split at h
      · simp at h
      · rename_i a ha
        exact ⟨k, agentId, user, a, h1, h2, usersDataGet_own.mp hu, ha⟩
  · simp at h

theorem applyUpdate_fields (body : UpdateBody) (a : Agent) :
    (applyUpdate body a).email = (truthy body.email).getD a.email ∧
    (applyUpdate body a).username = (truthy body.username).getD a.username ∧
    (applyUpdate body a).password = (truthy body.password).getD a.password ∧
    (applyUpdate body a).character = (truthy body.character).getD a.character := by
  unfold applyUpdate
  cases truthy body.email <;> cases truthy body.username <;>
    cases truthy body.password <;> cases truthy body.character <;> simp

/-- C8 (amended): a successful `updateAgent` request resolves to one persona
`a` of a registered owner and replaces it in place by a record in which each of
`email`, `username`, `password`, `character` holds the supplied value when the
request supplies a non-empty string for it, and the old value when the field is
absent or the empty string; the persona's `id`, `running` flag and log array are
the same, the other personas of the owner keep their places, the other owners
are untouched, and `agentProcesses`, the children, the log arrays and the
recorded `kill` calls are unchanged. -/
theorem C8_update_fields (s : State) (body : UpdateBody)
    (h : (updateAgent s body).2.status = 200) :
    ∃ k agentId user a l1 l2,
      truthy body.publicKey = some k ∧ truthy body.agentId = some agentId ∧
      objGet s.usersData k = some user ∧
      user.agents = l1 ++ a :: l2 ∧ a.id = agentId ∧ (∀ b ∈ l1, b.id ≠ agentId) ∧
      updateAgent s body =
        ({ s with usersData := objSet s.usersData k ⟨l1 ++ applyUpdate body a :: l2⟩ },
          ⟨200, .successAgent (applyUpdate body a)⟩) ∧
      (∀ k', k' ≠ k →
        objGet (updateAgent s body).1.usersData k' = objGet s.usersData k') ∧
      (applyUpdate body a).email = (truthy body.email).getD a.email ∧
      (applyUpdate body a).username = (truthy body.username).getD a.username ∧
      (applyUpdate body a).password = (truthy body.password).getD a.password ∧
      (applyUpdate body a).character = (truthy body.character).getD a.character ∧
      (applyUpdate body a).id = a.id ∧
      (applyUpdate body a).running = a.running ∧
      (applyUpdate body a).logs = a.logs := by
  obtain ⟨k, agentId, user, a, hk, hid, hu, ha⟩ := updateAgent_success h
  obtain ⟨l1, l2, e, haid, hl1⟩ := findAgent_split ha
  have heq := updateAgent_eq hk hid hu ha
  rw [e, mutateAgent_split a _ haid hl1] at heq
  obtain ⟨f1, f2, f3, f4⟩ := applyUpdate_fields body a
  refine ⟨k, agentId, user, a, l1, l2, hk, hid, hu, e, haid, hl1, heq, ?_, f1, f2, f3, f4,
    applyUpdate_id body a, applyUpdate_running body a, applyUpdate_logs body a⟩
  intro k' hk'
  rw [heq]
  exact objGet_objSet_other _ _ hk'

/-- C8 (amended) at a concrete request: the sample persona gets a new user
name and character, its email and password stay. -/
theorem C8_update_fields_witness :
    (updateAgent (run init setupRun) sampleUpdate).2.status = 200 ∧
    ∃ k agentId user a l1 l2,
      truthy sampleUpdate.publicKey = some k ∧ truthy sampleUpdate.agentId = some agentId ∧
      objGet (run init setupRun).usersData k = some user ∧
      user.agents = l1 ++ a :: l2 ∧ a.id = agentId ∧ (∀ b ∈ l1, b.id ≠ agentId) ∧
      updateAgent (run init setupRun) sampleUpdate =
        ({ run init setupRun with
            usersData := objSet (run init setupRun).usersData k
              ⟨l1 ++ applyUpdate sampleUpdate a :: l2⟩ },
          ⟨200, .successAgent (applyUpdate sampleUpdate a)⟩) ∧
      (∀ k', k' ≠ k →
        objGet (updateAgent (run init setupRun) sampleUpdate).1.usersData k' =
          objGet (run init setupRun).usersData k') ∧
      (applyUpdate sampleUpdate a).email = (truthy sampleUpdate.email).getD a.email ∧
      (applyUpdate sampleUpdate a).username = (truthy sampleUpdate.username).getD a.username ∧
      (applyUpdate sampleUpdate a).password = (truthy sampleUpdate.password).getD a.password ∧
      (applyUpdate sampleUpdate a).character
        = (truthy sampleUpdate.character).getD a.character ∧
      (applyUpdate sampleUpdate a).id = a.id ∧
      (applyUpdate sampleUpdate a).running = a.running ∧
      (applyUpdate sampleUpdate a).logs = a.logs :=
  ⟨by decide, C8_update_fields (run init setupRun) sampleUpdate (by decide)⟩

end Backend

namespace Runner

/-! ## C9 and C10: the reply of `generateResponse` -/

theorem decorate_of_not_lt {coin : ℚ} (pick : ℚ) (r : JSString) (h : ¬ coin < pointOne) :
    decorate coin pick r = r := by
  simp [decorate, h]

theorem half_not_lt_pointOne : ¬ ((1 : ℚ) / 2 < pointOne) := by
  norm_num [pointOne]

set_option maxRecDepth 20000 in
theorem finalText_shortAnswer :
    finalText shortAnswer = some ((List.replicate 20 [55349, 56970]).flatten ++ [46]) := by
  simp only [finalText, shortAnswer, callOpenAI, Option.map_some',
    decorate_of_not_lt _ _ half_not_lt_pointOne]
  decide

set_option maxRecDepth 20000 in
theorem finalText_fittingAnswer :
    finalText fittingAnswer = some ((List.replicate 60 [55349, 56970]).flatten ++ [46]) := by
  simp only [finalText, fittingAnswer, callOpenAI, Option.map_some',
    decorate_of_not_lt _ _ half_not_lt_pointOne]
  decide

set_option maxRecDepth 40000 in
theorem finalText_longAnswer :
    finalText longAnswer = some ((List.replicate 126 [55349, 56970]).flatten ++ [46]) := by
  simp only [finalText, longAnswer, callOpenAI, Option.map_some',
    decorate_of_not_lt _ _ half_not_lt_pointOne]
  decide

/-- C9: whenever `generateResponse` returns, the reply has at least 100 and at
most 250 UTF-16 code units; it is the first 250 code units of the final text of
one of the attempts, and that final text has at least 100 code units, so a
candidate shorter than 100 is never the one returned. -/
theorem C9_reply_length (env : List Attempt) (reply : JSString)
    (h : generateResponse env = .returned reply) :
    100 ≤ reply.length ∧ reply.length ≤ 250 ∧
    ∃ a ∈ env, ∃ t, finalText a = some t ∧ 100 ≤ t.length ∧ reply = t.take 250 := by
  obtain ⟨a, ha, t, ht, hlen, hr⟩ := generateResponse_returned h
  refine ⟨?_, ?_, a, ha, t, ht, hlen, hr⟩
  · rw [hr, List.length_take]; omega
  · rw [hr, List.length_take]; omega

set_option maxRecDepth 20000 in
/-- C9 at a concrete run: a first answer with a final text of 41 code units is
regenerated, the second with 121 code units is returned. -/
theorem C9_reply_length_witness :
    generateResponse [shortAnswer, fittingAnswer] =
      .returned ((List.replicate 60 [55349, 56970]).flatten ++ [46]) ∧
    100 ≤ ((List.replicate 60 [55349, 56970]).flatten ++ [46]).length ∧
    ((List.replicate 60 [55349, 56970]).flatten ++ [46]).length ≤ 250 ∧
    ∃ a ∈ [shortAnswer, fittingAnswer], ∃ t, finalText a = some t ∧ 100 ≤ t.length ∧
      (List.replicate 60 [55349, 56970]).flatten ++ [46] = t.take 250 := by
  have h : generateResponse [shortAnswer, fittingAnswer] =
      .returned ((List.replicate 60 [55349, 56970]).flatten ++ [46]) := by
    simp only [generateResponse, finalText_shortAnswer, finalText_fittingAnswer]
    decide
  exact ⟨h, C9_reply_length _ _ h⟩

set_option maxRecDepth 40000 in
/-- C10 as stated fails: for a model answer of 126 letters `a` the reply is the
first 250 code units of a final text of 253, that is 125 glyphs, and its last
code unit is the low surrogate 56970, not `.`, `!` or `?`. -/
theorem C10_truncated_reply_unpunctuated :
    generateResponse [longAnswer] = .returned (List.replicate 125 [55349, 56970]).flatten ∧
    endsWithTerminal (List.replicate 125 [55349, 56970]).flatten = false := by
  constructor
  · simp only [generateResponse, finalText_longAnswer]
    decide
  · decide

/-- C10 (amended): whenever `generateResponse` returns, the final text of the
accepted attempt, before truncation, ends in `.`, `!` or `?`, and the reply is
its first 250 code units; so the reply ends in `.`, `!` or `?` whenever that
final text has at most 250 code units. -/
theorem C10_final_text_punctuated (env : List Attempt) (reply : JSString)
    (h : generateResponse env = .returned reply) :
    ∃ a ∈ env, ∃ t, finalText a = some t ∧ endsWithTerminal t = true ∧
      reply = t.take 250 ∧ (t.length ≤ 250 → endsWithTerminal reply = true) := by
  obtain ⟨a, ha, t, ht, -, hr⟩ := generateResponse_returned h
  refine ⟨a, ha, t, ht, endsWithTerminal_finalText ht, hr, ?_⟩
  intro hlen
  rw [hr, List.take_of_length_le hlen]
  exact endsWithTerminal_finalText ht

set_option maxRecDepth 20000 in
/-- C10 (amended) at a concrete run: an answer whose final text has 121 code
units is returned whole and ends in the full stop that was appended. -/
theorem C10_final_text_punctuated_witness :
    generateResponse [fittingAnswer] =
      .returned ((List.replicate 60 [55349, 56970]).flatten ++ [46]) ∧
    ∃ a ∈ [fittingAnswer], ∃ t, finalText a = some t ∧ endsWithTerminal t = true ∧
      (List.replicate 60 [55349, 56970]).flatten ++ [46] = t.take 250 ∧
      (t.length ≤ 250 →
        endsWithTerminal ((List.replicate 60 [55349, 56970]).flatten ++ [46]) = true) := by
  have h : generateResponse [fittingAnswer] =
      .returned ((List.replicate 60 [55349, 56970]).flatten ++ [46]) := by
    simp only [generateResponse, finalText_fittingAnswer]
    decide
  exact ⟨h, C10_final_text_punctuated _ _ h⟩

/-! ## C11, C12, C16: the glyph transform -/

theorem serifMap_small : ∀ c < 123,
    serifMap c =
      if 65 ≤ c ∧ c ≤ 90 then some [55349, c + 56879]
      else if 97 ≤ c ∧ c ≤ 122 then some [55349, c + 56873]
      else none := by
  decide

theorem serifMap_large (c : Nat) (h : 123 ≤ c) : serifMap c = none := by
  unfold serifMap
  split <;> first | rfl | omega

theorem serifMap_letter {c : Nat} (h : isAsciiLetter c = true) :
    ∃ lo, serifMap c = some [55349, lo] ∧ 56944 ≤ lo ∧ lo ≤ 56995 ∧
      (lo = c + 56879 ∧ c ≤ 90 ∨ lo = c + 56873 ∧ 97 ≤ c) := by
  simp only [isAsciiLetter, Bool.or_eq_true, Bool.and_eq_true, decide_eq_true_eq] at h
  have hc : c < 123 := by omega
  rw [serifMap_small c hc]
  rcases h with h | h
  · exact ⟨c + 56879, by simp [h], by omega, by omega, Or.inl ⟨rfl, h.2⟩⟩
  · have hn : ¬ (65 ≤ c ∧ c ≤ 90) := by omega
    exact ⟨c + 56873, by simp [hn, h], by omega, by omega, Or.inr ⟨rfl, h.1⟩⟩

theorem serifMap_nonLetter {c : Nat} (h : isAsciiLetter c = false) : serifMap c = none := by
  have h' : ¬ (65 ≤ c ∧ c ≤ 90) ∧ ¬ (97 ≤ c ∧ c ≤ 122) := by
    simp only [isAsciiLetter, Bool.or_eq_false_iff, Bool.and_eq_false_imp,
      decide_eq_true_eq, decide_eq_false_iff_not] at h
    constructor <;> omega
  by_cases hc : c < 123
  · rw [serifMap_small c hc]; simp [h'.1, h'.2]
  · exact serifMap_large c (by omega)

theorem serifMap_isSome (c : Nat) : (serifMap c).isSome = isAsciiLetter c := by
  cases h : isAsciiLetter c with
  | true =>
    obtain ⟨lo, hlo, -⟩ := serifMap_letter h
    simp [hlo]
  | false => simp [serifMap_nonLetter h]

theorem toSerif_cons (c : Nat) (s : JSString) :
    toSerif (c :: s) = (serifMap c).getD [c] ++ toSerif s := by
  simp [toSerif, List.flatMap_cons]

theorem toSerif_append (s t : JSString) : toSerif (s ++ t) = toSerif s ++ toSerif t := by
  simp [toSerif, List.flatMap_append]

theorem toSerif_of_no_letter {s : JSString} (h : ∀ c ∈ s, isAsciiLetter c = false) :
    toSerif s = s := by
  induction s with
  | nil => rfl
  | cons c s ih =>
    rw [toSerif_cons, serifMap_nonLetter (h c (by simp)),
      ih (fun d hd => h d (by simp [hd]))]
    rfl

theorem toSerif_eq_spec (s : JSString) : toSerif s = toSerifSpec s := by
  induction s with
  | nil => rfl
  | cons c s ih =>
    rw [toSerif_cons, ih]
    simp only [toSerifSpec, List.map_cons, List.flatten_cons, replaceLetter]
    cases h : isAsciiLetter c with
    | true =>
      obtain ⟨lo, hlo, -⟩ := serifMap_letter h
      simp [hlo]
    | false => simp [serifMap_nonLetter h]

set_option maxRecDepth 20000 in
theorem asciiLetter_count : ((List.range 128).filter isAsciiLetter).length = 52 := by
  decide

/-- C11: `toSerif(s)` is `s` with every code unit that is an ASCII letter
replaced in place by its entry of the table and every other code unit kept;
the code units that have an entry are exactly the 52 ASCII letters; and a
string without ASCII letters is returned as it is. -/
theorem C11_toSerif_replaces_letters (s : JSString) :
    toSerif s = toSerifSpec s ∧
    (∀ c, (serifMap c).isSome = isAsciiLetter c) ∧
    ((List.range 128).filter isAsciiLetter).length = 52 ∧
    ((∀ c ∈ s, isAsciiLetter c = false) → toSerif s = s) :=
  ⟨toSerif_eq_spec s, serifMap_isSome, asciiLetter_count, toSerif_of_no_letter⟩

/-- C11 at a concrete string: `"Hi 5!"` becomes the glyphs of `H` and `i`
followed by the unchanged `" 5!"`, and `" 5!"` alone is returned as it is. -/
theorem C11_toSerif_replaces_letters_witness :
    toSerif [72, 105, 32, 53, 33] = [55349, 56951, 55349, 56978, 32, 53, 33] ∧
    toSerif [32, 53, 33] = [32, 53, 33] :=
  ⟨by decide,
    (C11_toSerif_replaces_letters [32, 53, 33]).2.2.2 (by decide)⟩

/-! ### C12 -/

theorem serifMap_getD_length (c : Nat) :
    ((serifMap c).getD [c]).length = 1 + (if isAsciiLetter c = true then 1 else 0) := by
  cases h : isAsciiLetter c with
  | true =>
    obtain ⟨lo, hlo, -⟩ := serifMap_letter h
    simp [hlo]
  | false => simp [serifMap_nonLetter h]

/-- C12: measured in UTF-16 code units, `toSerif(s)` is as long as `s` plus the
number of ASCII letters in `s`, hence at least as long as `s`; every entry of
the table has two code units. -/
theorem C12_toSerif_length (s : JSString) :
    (toSerif s).length = s.length + s.countP isAsciiLetter ∧
    s.length ≤ (toSerif s).length ∧
    (∀ c g, serifMap c = some g → g.length = 2) := by
  have hlen : (toSerif s).length = s.length + s.countP isAsciiLetter := by
    induction s with
    | nil => rfl
    | cons c s ih =>
      rw [toSerif_cons, List.length_append, serifMap_getD_length, ih, List.countP_cons,
        List.length_cons]
      omega
  refine ⟨hlen, by omega, ?_⟩
  intro c g hg
  have hl : isAsciiLetter c = true := by
    rw [← serifMap_isSome, hg]; rfl
  obtain ⟨lo, hlo, -⟩ := serifMap_letter hl
  rw [hlo] at hg
  injection hg with hg
  rw [← hg]; rfl

/-! ### C16 -/

theorem glyph_no_letter {c : Nat} {g : JSString} (hg : serifMap c = some g) :
    ∀ u ∈ g, isAsciiLetter u = false := by
  have hl : isAsciiLetter c = true := by
    rw [← serifMap_isSome, hg]; rfl
  obtain ⟨lo, hlo, h1, h2, -⟩ := serifMap_letter hl
  rw [hlo] at hg
  injection hg with hg
  intro u hu
  rw [← hg] at hu
  simp only [List.mem_cons, List.mem_singleton, List.not_mem_nil, or_false] at hu
  rcases hu with rfl | rfl
  · decide
  · simp only [isAsciiLetter, Bool.or_eq_false_iff, Bool.and_eq_false_imp,
      decide_eq_true_eq, decide_eq_false_iff_not]
    constructor <;> omega

theorem serifMap_injective {c d : Nat} {g : JSString} (hc : serifMap c = some g)
    (hd : serifMap d = some g) : c = d := by
  have hlc : isAsciiLetter c = true := by rw [← serifMap_isSome, hc]; rfl
  have hld : isAsciiLetter d = true := by rw [← serifMap_isSome, hd]; rfl
  obtain ⟨lo, hlo, -, -, hfc⟩ := serifMap_letter hlc
  obtain ⟨lo', hlo', -, -, hfd⟩ := serifMap_letter hld
  rw [hlo] at hc
  rw [hlo'] at hd
  have : lo = lo' := by
    have h := hc.trans hd.symm
    simpa using h
  simp only [isAsciiLetter, Bool.or_eq_true, Bool.and_eq_true, decide_eq_true_eq] at hlc hld
  omega

theorem toSerif_idempotent (s : JSString) : toSerif (toSerif s) = toSerif s := by
  induction s with
  | nil => rfl
  | cons c s ih =>
    rw [toSerif_cons, toSerif_append, ih]
    congr 1
    cases h : serifMap c with
    | some g => exact toSerif_of_no_letter (glyph_no_letter h)
    | none =>
      have hn : isAsciiLetter c = false := by
        rw [← serifMap_isSome, h]; rfl
      exact toSerif_of_no_letter (by simpa using hn)

theorem toSerif_eq_nil {s : JSString} (h : toSerif s = []) : s = [] := by
  cases s with
  | nil => rfl
  | cons c s =>
    have := congrArg List.length h
    rw [toSerif_cons, List.length_append, serifMap_getD_length] at this
    simp at this

theorem toSerif_injective_ascii (s : JSString) :
    ∀ t : JSString, (∀ c ∈ s, c < 128) → (∀ c ∈ t, c < 128) →
      toSerif s = toSerif t → s = t := by
  induction s with
  | nil =>
    intro t _ _ h
    exact (toSerif_eq_nil h.symm).symm
  | cons c s ih =>
    intro t hs ht h
    cases t with
    | nil => exact toSerif_eq_nil h
    | cons d t =>
      have hc : c < 128 := hs c (by simp)
      have hd : d < 128 := ht d (by simp)
      rw [toSerif_cons, toSerif_cons] at h
      have hs' : ∀ x ∈ s, x < 128 := fun x hx => hs x (by simp [hx])
      have ht' : ∀ x ∈ t, x < 128 := fun x hx => ht x (by simp [hx])
      cases hlc : isAsciiLetter c <;> cases hld : isAsciiLetter d
      · rw [serifMap_nonLetter hlc, serifMap_nonLetter hld] at h
        simp only [Option.getD_none, List.singleton_append, List.cons.injEq] at h
        rw [h.1, ih t hs' ht' h.2]
      · obtain ⟨lo, hlo, -⟩ := serifMap_letter hld
        rw [serifMap_nonLetter hlc, hlo] at h
        simp only [Option.getD_none, Option.getD_some, List.singleton_append,
          List.cons_append, List.cons.injEq] at h
        omega
      · obtain ⟨lo, hlo, -⟩ := serifMap_letter hlc
        rw [serifMap_nonLetter hld, hlo] at h
        simp only [Option.getD_none, Option.getD_some, List.singleton_append,
          List.cons_append, List.cons.injEq] at h
        omega
      · obtain ⟨lo, hlo, -⟩ := serifMap_letter hlc
        obtain ⟨lo', hlo', -⟩ := serifMap_letter hld
        rw [hlo, hlo'] at h
        simp only [Option.getD_some, List.cons_append, List.nil_append,
          List.cons.injEq, true_and] at h
        have hcd : c = d := serifMap_injective hlo (by rw [hlo', h.1])
        rw [hcd, ih t hs' ht' h.2]

/-- C16: `toSerif` is idempotent, because no code unit of a table entry is an
ASCII letter; the table gives different letters different entries; and two
strings of ASCII code units with the same image under `toSerif` are equal. -/
theorem C16_toSerif_idempotent_injective (s t : JSString) :
    toSerif (toSerif s) = toSerif s ∧
    (∀ c g, serifMap c = some g → ∀ u ∈ g, isAsciiLetter u = false) ∧
    (∀ c d g, serifMap c = some g → serifMap d = some g → c = d) ∧
    ((∀ c ∈ s, c < 128) → (∀ c ∈ t, c < 128) → toSerif s = toSerif t → s = t) :=
  ⟨toSerif_idempotent s, fun _ _ hg => glyph_no_letter hg,
    fun _ _ _ hc hd => serifMap_injective hc hd, toSerif_injective_ascii s t⟩

/-- C16 at concrete strings: the image of `"Hi!"` is a fixed point, and `"Hi!"`
and `"hi!"`, both ASCII, have different images. -/
theorem C16_toSerif_idempotent_injective_witness :
    toSerif (toSerif [72, 105, 33]) = toSerif [72, 105, 33] ∧
    toSerif [72, 105, 33] ≠ toSerif [104, 105, 33] :=
  ⟨(C16_toSerif_idempotent_injective [72, 105, 33] [104, 105, 33]).1,
    fun h => absurd
      ((C16_toSerif_idempotent_injective [72, 105, 33] [104, 105, 33]).2.2.2
        (by decide) (by decide) h) (by decide)⟩

/-! ## C13: the delay of the action cycle -/

theorem delay_eq (r : ℚ) : delay r = ⌊r * 120001 + 60000⌋ := by
  unfold delay INTERACTION_INTERVAL.MAX INTERACTION_INTERVAL.MIN
  norm_num

/-- C13: for every draw `r` with `0 ≤ r < 1`, taken as an exact rational, the
delay `floor(r * (MAX - MIN + 1) + MIN)` is an integer between 60000 and
180000 milliseconds, and both bounds are reached: 60000 at `r = 0` and 180000
at `r = 120000 / 120001`. -/
theorem C13_delay_bounds (r : ℚ) (h0 : 0 ≤ r) (h1 : r < 1) :
    60000 ≤ delay r ∧ delay r ≤ 180000 ∧
    (∃ r0 : ℚ, 0 ≤ r0 ∧ r0 < 1 ∧ delay r0 = 60000) ∧
    (∃ r1 : ℚ, 0 ≤ r1 ∧ r1 < 1 ∧ delay r1 = 180000) := by
  refine ⟨?_, ?_, ⟨0, le_refl _, by norm_num, ?_⟩,
    ⟨120000 / 120001, by norm_num, by norm_num, ?_⟩⟩
  · rw [delay_eq]
    apply Int.le_floor.mpr
    push_cast
    nlinarith
  · rw [delay_eq]
    have : ⌊r * 120001 + 60000⌋ < 180001 := by
      apply Int.floor_lt.mpr
      push_cast
      nlinarith
    omega
  · rw [delay_eq]
    norm_num
  · rw [delay_eq]
    have : (120000 / 120001 : ℚ) * 120001 + 60000 = ((180000 : ℤ) : ℚ) := by norm_num
    rw [this, Int.floor_intCast]

/-- C13 at a concrete draw: `r = 1/2` gives a delay of 120000 ms, within the
bounds. -/
theorem C13_delay_bounds_witness :
    delay (1 / 2) = 120000 ∧ 60000 ≤ delay (1 / 2) ∧ delay (1 / 2) ≤ 180000 := by
  have h := C13_delay_bounds (1 / 2) (by norm_num) (by norm_num)
  refine ⟨?_, h.1, h.2.1⟩
  rw [delay_eq]
  have : (1 / 2 : ℚ) * 120001 + 60000 = ((120000 : ℤ) : ℚ) + 1 / 2 := by norm_num
  rw [this]
  rw [Int.floor_eq_iff]
  constructor <;> norm_num

/-! ## C15: regeneration without bound -/

theorem generateResponse_short_prefix (pre env : List Attempt)
    (hpre : ∀ b ∈ pre, ∃ u, finalText b = some u ∧ u.length < 100) :
    generateResponse (pre ++ env) = generateResponse env ∧
    modelCalls (pre ++ env) = pre.length + modelCalls env := by
  induction pre with
  | nil => simp
  | cons b pre ih =>
    obtain ⟨u, hu, hlen⟩ := hpre b (by simp)
    obtain ⟨h1, h2⟩ := ih (fun c hc => hpre c (by simp [hc]))
    constructor
    · rw [List.cons_append]
      simp only [generateResponse, hu, hlen, if_true]
      exact h1
    · rw [List.cons_append]
      simp only [modelCalls, hu, hlen, if_true, List.length_cons]
      have h2' : modelCalls (pre.append env) = pre.length + modelCalls env := h2
      omega

theorem shortAnswer_short : ∃ u, finalText shortAnswer = some u ∧ u.length < 100 :=
  ⟨_, finalText_shortAnswer, by decide⟩

/-- C15: `generateResponse` regenerates without bound. For every `n` there are
answers, all but the last with a final text shorter than 100 code units, on
which it returns only after more than `n` model calls. On answers that all give
such a short final text it has made one call per answer and is still
recursing, however many answers there are, so it never returns. And when the
first `k` final texts are shorter than 100 and the next one is not, it returns
the first 250 code units of that one after exactly `k + 1` calls. -/
theorem C15_unbounded_regeneration (n : Nat) (pre : List Attempt) (a : Attempt)
    (rest : List Attempt) (t : JSString)
    (hpre : ∀ b ∈ pre, ∃ u, finalText b = some u ∧ u.length < 100)
    (ha : finalText a = some t) (hlen : 100 ≤ t.length) :
    (∃ shorts last reply,
      (∀ b ∈ shorts, ∃ u, finalText b = some u ∧ u.length < 100) ∧
      generateResponse (shorts ++ [last]) = .returned reply ∧
      n < modelCalls (shorts ++ [last])) ∧
    (generateResponse pre = .pending ∧ modelCalls pre = pre.length) ∧
    (generateResponse (pre ++ a :: rest) = .returned (t.take 250) ∧
      modelCalls (pre ++ a :: rest) = pre.length + 1) := by
  have hret : ∀ (b : Attempt) (u : JSString) (env : List Attempt),
      finalText b = some u → 100 ≤ u.length →
      generateResponse (b :: env) = .returned (u.take 250) ∧ modelCalls (b :: env) = 1 := by
    intro b u env hb hu
    have hnot : ¬ u.length < 100 := by omega
    exact ⟨by simp only [generateResponse, hb, hnot, if_false],
      by simp only [modelCalls, hb, hnot, if_false]⟩
  refine ⟨?_, ?_, ?_⟩
  · have hs : ∀ b ∈ List.replicate (n + 1) shortAnswer,
        ∃ u, finalText b = some u ∧ u.length < 100 := by
      intro b hb
      rw [List.eq_of_mem_replicate hb]
      exact shortAnswer_short
    obtain ⟨h1, h2⟩ := generateResponse_short_prefix _ [fittingAnswer] hs
    obtain ⟨h3, h4⟩ := hret fittingAnswer _ [] finalText_fittingAnswer (by decide)
    refine ⟨List.replicate (n + 1) shortAnswer, fittingAnswer, _, hs, h1.trans h3, ?_⟩
    rw [h2, h4, List.length_replicate]
    omega
  · have := generateResponse_short_prefix pre [] hpre
    simpa [generateResponse, modelCalls] using this
  · obtain ⟨h1, h2⟩ := generateResponse_short_prefix pre (a :: rest) hpre
    obtain ⟨h3, h4⟩ := hret a t rest ha hlen
    exact ⟨h1.trans h3, by rw [h2, h4]⟩

set_option maxRecDepth 20000 in
/-- C15 at a concrete run: two short answers and then one of 121 code units
give the reply after exactly three model calls. -/
theorem C15_unbounded_regeneration_witness :
    generateResponse ([shortAnswer, shortAnswer] ++ fittingAnswer :: []) =
      .returned (((List.replicate 60 [55349, 56970]).flatten ++ [46]).take 250) ∧
    modelCalls ([shortAnswer, shortAnswer] ++ fittingAnswer :: []) = 3 ∧
    generateResponse [shortAnswer, shortAnswer] = .pending :=
  have h := C15_unbounded_regeneration 1 [shortAnswer, shortAnswer] fittingAnswer []
    ((List.replicate 60 [55349, 56970]).flatten ++ [46])
    (fun b hb => by
      simp only [List.mem_cons, List.mem_singleton, List.not_mem_nil, or_false, or_self] at hb
      rw [hb]; exact shortAnswer_short)
    finalText_fittingAnswer (by decide)
  ⟨h.2.2.1, h.2.2.2, h.2.1.1⟩

end Runner

namespace Backend

/-! ## C14: status codes -/

theorem usersDataGet_cases (s : State) (k : String) :
    (∃ u, usersDataGet s k = .own u ∧ objGet s.usersData k = some u) ∨
    (usersDataGet s k = .inherited ∧ objGet s.usersData k = none) ∨
    (usersDataGet s k = .absent ∧ objGet s.usersData k = none) := by
  unfold usersDataGet
  cases h : objGet s.usersData k with
  | some u => exact Or.inl ⟨u, rfl, rfl⟩
  | none =>
    by_cases hk : k ∈ objectPrototypeNames
    · exact Or.inr (Or.inl ⟨by simp [hk], rfl⟩)
    · exact Or.inr (Or.inr ⟨by simp [hk], rfl⟩)

theorem findAgentIndex_isNone (agents : List Agent) (agentId : String) :
    (findAgentIndex agents agentId).isNone = (findAgent agents agentId).isNone := by
  cases hf : findAgent agents agentId with
  | none =>
    simp [findAgentIndex_eq_none.mpr (findAgent_eq_none.mp hf)]
  | some a =>
    obtain ⟨l1, l2, e, hid, hl1⟩ := findAgent_split hf
    rw [e, findAgentIndex_split a hid hl1]
    rfl

/-- C14 as stated fails: a complete `createAgent` request of a registered owner
who already has three personas is answered 400 although no required field is
missing. -/
theorem C14_limit_answered_400 :
    fieldMissing (.createAgent sampleCreate personaId) = false ∧
    ownerRegistered (run init fullRun) (.createAgent sampleCreate personaId) = true ∧
    (answer (run init fullRun) (.createAgent sampleCreate personaId)).status = 400 := by
  decide

/-- C14 (amended): for every request to one of the seven control handlers
whose owner key does not resolve to a property inherited from
`Object.prototype`, and that is not a `startAgent` of a not-running persona
with U+0000 in a credential (for which `spawn` throws), the status is 400
exactly when a required field is absent or empty or the request is a
`createAgent` of a registered owner who already has three personas; 403 exactly
when all required fields are non-empty and the owner is not registered; 404
exactly when all required fields are non-empty, the owner is registered and the
request names a persona the owner does not have; and 200 in every other case. -/
theorem C14_status_codes (s : State) (r : ControlRequest)
    (hown : ∀ k, truthy (ownerField r) = some k → usersDataGet s k ≠ Lookup.inherited)
    (hspawn : spawnRejected s r = false) :
    ((answer s r).status = 400 ↔ (fieldMissing r = true ∨ limitReached s r = true)) ∧
    ((answer s r).status = 403 ↔ (fieldMissing r = false ∧ ownerRegistered s r = false)) ∧
    ((answer s r).status = 404 ↔
      (fieldMissing r = false ∧ ownerRegistered s r = true ∧ personaUnknown s r = true)) ∧
    ((answer s r).status = 200 ↔
      (fieldMissing r = false ∧ ownerRegistered s r = true ∧ personaUnknown s r = false ∧
        limitReached s r = false)) := by
  cases r with
  | getAgents publicKey =>
    cases hk : truthy publicKey with
    | none =>
      simp [answer, getAgents, fieldMissing, requiredFields, ownerRegistered, ownerField,
        personaUnknown, personaField, limitReached, hk]
    | some k =>
      have hne := hown k hk
      rcases usersDataGet_cases s k with ⟨u, h1, h2⟩ | ⟨h1, h2⟩ | ⟨h1, h2⟩
      · simp [answer, getAgents, fieldMissing, requiredFields, ownerRegistered, ownerField,
          personaUnknown, personaField, limitReached, hk, h1, h2]
      · exact absurd h1 hne
      · simp [answer, getAgents, fieldMissing, requiredFields, ownerRegistered, ownerField,
          personaUnknown, personaField, limitReached, hk, h1, h2]
  | createAgent body uuid =>
    cases hk : truthy body.publicKey with
    | none =>
      simp [answer, createAgent, fieldMissing, requiredFields, ownerRegistered, ownerField,
        personaUnknown, personaField, limitReached, hk]
    | some k =>
      have hne := hown k hk
      rcases usersDataGet_cases s k with ⟨u, h1, h2⟩ | ⟨h1, h2⟩ | ⟨h1, h2⟩
      · by_cases hl : 3 ≤ u.agents.length <;>
          cases he : truthy body.email <;> cases hn : truthy body.username <;>
          cases hp : truthy body.password <;> cases hc : truthy body.character <;>
          simp [answer, createAgent, fieldMissing, requiredFields, ownerRegistered, ownerField,
            personaUnknown, personaField, limitReached, hk, he, hn, hp, hc, h1, h2, hl]
      · exact absurd h1 hne
      · cases he : truthy body.email <;> cases hn : truthy body.username <;>
          cases hp : truthy body.password <;> cases hc : truthy body.character <;>
          simp [answer, createAgent, fieldMissing, requiredFields, ownerRegistered, ownerField,
            personaUnknown, personaField, limitReached, hk, he, hn, hp, hc, h1, h2]
  | updateAgent body =>
    cases hk : truthy body.publicKey with
    | none =>
      cases hid : truthy body.agentId <;>
        simp [answer, updateAgent, fieldMissing, requiredFields, ownerRegistered, ownerField,
          personaUnknown, personaField, limitReached, hk, hid]
    | some k =>
      have hne := hown k hk
      cases hid : truthy body.agentId with
      | none =>
        simp [answer, updateAgent, fieldMissing, requiredFields, ownerRegistered, ownerField,
          personaUnknown, personaField, limitReached, hk, hid]
      | some agentId =>
        rcases usersDataGet_cases s k with ⟨u, h1, h2⟩ | ⟨h1, h2⟩ | ⟨h1, h2⟩
        · cases hf : findAgent u.agents agentId <;>
            simp [answer, updateAgent, fieldMissing, requiredFields, ownerRegistered, ownerField,
          personaUnknown, personaField, limitReached, hk, hid, h1, h2, hf]
        · exact absurd h1 hne
        · simp [answer, updateAgent, fieldMissing, requiredFields, ownerRegistered, ownerField,
          personaUnknown, personaField, limitReached, hk, hid, h1, h2]
  | deleteAgent body =>
    cases hk : truthy body.publicKey with
    | none =>
      cases hid : truthy body.agentId <;>
        simp [answer, deleteAgent, fieldMissing, requiredFields, ownerRegistered, ownerField,
          personaUnknown, personaField, limitReached, hk, hid]
    | some k =>
      have hne := hown k hk
      cases hid : truthy body.agentId with
      | none =>
        simp [answer, deleteAgent, fieldMissing, requiredFields, ownerRegistered, ownerField,
          personaUnknown, personaField, limitReached, hk, hid]
      | some agentId =>
        rcases usersDataGet_cases s k with ⟨u, h1, h2⟩ | ⟨h1, h2⟩ | ⟨h1, h2⟩
        · cases hf : findAgent u.agents agentId with
          | none =>
            have hi := findAgentIndex_eq_none.mpr (findAgent_eq_none.mp hf)
            simp [answer, deleteAgent, fieldMissing, requiredFields, ownerRegistered, ownerField,
          personaUnknown, personaField, limitReached, hk, hid, h1, h2, hf, hi]
          | some a =>
            obtain ⟨l1, l2, e, ha, hl1⟩ := findAgent_split hf
            have hi := @findAgentIndex_split l1 l2 agentId a ha hl1
            rw [← e] at hi
            simp [answer, deleteAgent, fieldMissing, requiredFields, ownerRegistered, ownerField,
          personaUnknown, personaField, limitReached, hk, hid, h1, h2, hf, hi]
        · exact absurd h1 hne
        · simp [answer, deleteAgent, fieldMissing, requiredFields, ownerRegistered, ownerField,
          personaUnknown, personaField, limitReached, hk, hid, h1, h2]
  | startAgent body now =>
    cases hk : truthy body.publicKey with
    | none =>
      cases hid : truthy body.agentId <;>
        simp [answer, startAgent, fieldMissing, requiredFields, ownerRegistered, ownerField,
          personaUnknown, personaField, limitReached, hk, hid]
    | some k =>
      have hne := hown k hk
      cases hid : truthy body.agentId with
      | none =>
        simp [answer, startAgent, fieldMissing, requiredFields, ownerRegistered, ownerField,
          personaUnknown, personaField, limitReached, hk, hid]
      | some agentId =>
        rcases usersDataGet_cases s k with ⟨u, h1, h2⟩ | ⟨h1, h2⟩ | ⟨h1, h2⟩
        · cases hf : findAgent u.agents agentId with
          | none =>
            simp [answer, startAgent, fieldMissing, requiredFields, ownerRegistered, ownerField,
          personaUnknown, personaField, limitReached, hk, hid, h1, h2, hf]
          | some a =>
            cases hr : a.running with
            | true =>
              simp [answer, startAgent, fieldMissing, requiredFields, ownerRegistered, ownerField,
                personaUnknown, personaField, limitReached, hk, hid, h1, h2, hf, hr]
            | false =>
              have hsp : spawnThrows { a with running := true } = false := by
                simpa [spawnRejected, spawnThrows, hk, hid, h2, hf, hr] using hspawn
              simp [answer, startAgent, startAgentProcess, fieldMissing, requiredFields,
                ownerRegistered, ownerField, personaUnknown, personaField, limitReached,
                hk, hid, h1, h2, hf, hr, hsp]
        · exact absurd h1 hne
        · simp [answer, startAgent, fieldMissing, requiredFields, ownerRegistered, ownerField,
          personaUnknown, personaField, limitReached, hk, hid, h1, h2]
  | stopAgent body now =>
    cases hk : truthy body.publicKey with
    | none =>
      cases hid : truthy body.agentId <;>
        simp [answer, stopAgent, fieldMissing, requiredFields, ownerRegistered, ownerField,
          personaUnknown, personaField, limitReached, hk, hid]
    | some k =>
      have hne := hown k hk
      cases hid : truthy body.agentId with
      | none =>
        simp [answer, stopAgent, fieldMissing, requiredFields, ownerRegistered, ownerField,
          personaUnknown, personaField, limitReached, hk, hid]
      | some agentId =>
        rcases usersDataGet_cases s k with ⟨u, h1, h2⟩ | ⟨h1, h2⟩ | ⟨h1, h2⟩
        · cases hf : findAgent u.agents agentId with
          | none =>
            simp [answer, stopAgent, fieldMissing, requiredFields, ownerRegistered, ownerField,
          personaUnknown, personaField, limitReached, hk, hid, h1, h2, hf]
          | some a =>
            cases hr : a.running <;>
              simp [answer, stopAgent, fieldMissing, requiredFields, ownerRegistered, ownerField,
          personaUnknown, personaField, limitReached, hk, hid, h1, h2, hf, hr]
        · exact absurd h1 hne
        · simp [answer, stopAgent, fieldMissing, requiredFields, ownerRegistered, ownerField,
          personaUnknown, personaField, limitReached, hk, hid, h1, h2]
  | getAgentLogs query =>
    cases hk : truthy query.publicKey with
    | none =>
      cases hid : truthy query.agentId <;>
        simp [answer, getAgentLogs, fieldMissing, requiredFields, ownerRegistered, ownerField,
          personaUnknown, personaField, limitReached, hk, hid]
    | some k =>
      have hne := hown k hk
      cases hid : truthy query.agentId with
      | none =>
        simp [answer, getAgentLogs, fieldMissing, requiredFields, ownerRegistered, ownerField,
          personaUnknown, personaField, limitReached, hk, hid]
      | some agentId =>
        rcases usersDataGet_cases s k with ⟨u, h1, h2⟩ | ⟨h1, h2⟩ | ⟨h1, h2⟩
        · cases hf : findAgent u.agents agentId <;>
            simp [answer, getAgentLogs, fieldMissing, requiredFields, ownerRegistered, ownerField,
          personaUnknown, personaField, limitReached, hk, hid, h1, h2, hf]
        · exact absurd h1 hne
        · simp [answer, getAgentLogs, fieldMissing, requiredFields, ownerRegistered, ownerField,
          personaUnknown, personaField, limitReached, hk, hid, h1, h2]

/-- C14 (amended) at two concrete requests: the fourth `createAgent` of the
sample owner, whose key is registered, is answered 400 because the limit is
reached; and a `startAgent` of the sample persona, which is not running and
whose credentials hold no U+0000, is answered 200. -/
theorem C14_status_codes_witness :
    (limitReached (run init fullRun) (.createAgent sampleCreate personaId) = true ∧
      spawnRejected (run init fullRun) (.createAgent sampleCreate personaId) = false ∧
      ((answer (run init fullRun) (.createAgent sampleCreate personaId)).status = 400 ↔
        (fieldMissing (.createAgent sampleCreate personaId) = true ∨
          limitReached (run init fullRun) (.createAgent sampleCreate personaId) = true))) ∧
    (spawnRejected (run init setupRun) (.startAgent sampleRef sampleTime) = false ∧
      (answer (run init setupRun) (.startAgent sampleRef sampleTime)).status = 200) :=
  ⟨⟨by decide, by decide,
    (C14_status_codes (run init fullRun) (.createAgent sampleCreate personaId)
      (fun k hk => by
        have hk' : k = ownerKey := by
          have h0 : truthy (ownerField (.createAgent sampleCreate personaId)) = some ownerKey := by
            decide
          rw [h0] at hk
          exact (Option.some.inj hk).symm
        rw [hk']
        decide)
      (by decide)).1⟩,
   ⟨by decide,
    (C14_status_codes (run init setupRun) (.startAgent sampleRef sampleTime)
      (fun k hk => by
        have hk' : k = ownerKey := by
          have h0 : truthy (ownerField (.startAgent sampleRef sampleTime)) = some ownerKey := by
            decide
          rw [h0] at hk
          exact (Option.some.inj hk).symm
        rw [hk']
        decide)
      (by decide)).2.2.2.mpr (by decide)⟩⟩

end Backend
